import Mathlib

/-! The NTFS change journal reader `j0.c` of nt-usn.

A shallow embedding of `j0.c` and the properties of its journal reader.

* Memory is a list of bytes read through `readByte`; a pointer into the chunk
  buffer is the byte offset from the start of the buffer, a pointer that may be
  `NULL` is an `Option`. The bytes that follow the array in memory are not
  modelled: a read past the end of the list yields 0, so a result that depends
  on such a read says nothing of the program. For `_UsnpDump` there is also
  `_UsnpDumpBounded`, in which a read outside the buffer is `none`; the theorem
  on record lengths that the walk does not test takes the `RecordLength` field
  it reads inside the buffer and follows the walk no further than the pointer
  that field gives.
* The process state touched by the code (the thread's last-error value, what
  was written to `stdout` and `stderr`, the handles passed to `CloseHandle`) is
  the explicit `World`.
* The operating system is the parameter `Env`: every Win32 call the program
  makes is a field of it, so every theorem holds for every behaviour of the
  system.
* A `wprintf` call is recorded as the list of its arguments, the format string
  being fixed in the source.
* `count` and `g_count` are C `int`s: their values lie between `-2^31` and
  `2^31 - 1`, and `count++` wraps from `2^31 - 1` to `-2^31` (`intIncr`). With
  `g_count` at `2^31 - 1` the test `count++ > g_count` cannot succeed.
* The loops take fuel. `readLoop`, the loop `while(1)` of
  `_UsnpReadJournalRecords`, spends one unit on every fetch and gives the walk
  of every chunk `walkFuel` passes and as many more as it has fuel left; its
  result is `none` when the function has not returned within the fuel. With
  `g_count` below `2^31 - 1` the walk ends within `walkFuel` passes
  (`walkChunk_total`).
-/

namespace Usn

/-! ## Constants of the platform headers -/

/-- Values that `j0.c` takes from the Windows SDK headers (`winerror.h`,
`winioctl.h`), which are not part of the repository: error codes, the page
size, and the byte offsets of the fields of `USN_RECORD_V3`. They are a
parameter of the embedding. -/
structure Platform where
  ERROR_INVALID_DATA : Nat
  ERROR_INVALID_PARAMETER : Nat
  ERROR_CALL_NOT_IMPLEMENTED : Nat
  ERROR_INSUFFICIENT_BUFFER : Nat
  ERROR_IMPLEMENTATION_LIMIT : Nat
  INVALID_HANDLE_VALUE : Nat
  USN_PAGE_SIZE : Nat
  ofsRecordLength : Nat
  ofsMajorVersion : Nat
  ofsFileReferenceNumber : Nat
  ofsParentFileReferenceNumber : Nat
  ofsUsn : Nat
  ofsTimeStamp : Nat
  ofsReason : Nat
  ofsFileAttributes : Nat
  ofsFileNameLength : Nat
  ofsFileNameOffset : Nat

/-- The values of the Windows 10 SDK. -/
def winsdk : Platform where
  ERROR_INVALID_DATA := 13
  ERROR_INVALID_PARAMETER := 87
  ERROR_CALL_NOT_IMPLEMENTED := 120
  ERROR_INSUFFICIENT_BUFFER := 122
  ERROR_IMPLEMENTATION_LIMIT := 1292
  INVALID_HANDLE_VALUE := 2 ^ 64 - 1
  USN_PAGE_SIZE := 4096
  ofsRecordLength := 0
  ofsMajorVersion := 4
  ofsFileReferenceNumber := 8
  ofsParentFileReferenceNumber := 24
  ofsUsn := 40
  ofsTimeStamp := 48
  ofsReason := 56
  ofsFileAttributes := 68
  ofsFileNameLength := 72
  ofsFileNameOffset := 74

/-- The macro `_USN_BUFFER_SIZE`: `(USN_PAGE_SIZE * 2)`. -/
def _USN_BUFFER_SIZE (sdk : Platform) : Nat := sdk.USN_PAGE_SIZE * 2

/-- The constant `MAX_PATH` of `minwindef.h`, the size of the two text buffers
of `_UsnpFormatRecordV3`. -/
def MAX_PATH : Nat := 260

/-- The value of `sizeof(USN)`: a `USN` is a `LONGLONG`. -/
def sizeofUSN : Nat := 8

/-- The value of `sizeof(wchar_t)` with the Microsoft compiler. -/
def sizeofWchar : Nat := 2

/-- The value of `sizeof(FILE_ID_128)`: `BYTE Identifier[16]`. -/
def sizeofFileId128 : Nat := 16

/-! ## Memory -/

/-- One byte of a buffer; the cells hold values below 256. -/
def readByte (buffer : List Nat) (i : Nat) : Nat := buffer.getD i 0 % 256

/-- A little-endian `WORD` at byte offset `i`. -/
def rd16 (buffer : List Nat) (i : Nat) : Nat :=
  readByte buffer i + 256 * readByte buffer (i + 1)

/-- A little-endian `DWORD` at byte offset `i`. -/
def rd32 (buffer : List Nat) (i : Nat) : Nat :=
  rd16 buffer i + 65536 * rd16 buffer (i + 2)

/-- A little-endian 64-bit value at byte offset `i`. -/
def rd64 (buffer : List Nat) (i : Nat) : Nat :=
  rd32 buffer i + 4294967296 * rd32 buffer (i + 4)

/-- The `n` bytes at byte offset `i`. -/
def readBytes (buffer : List Nat) (i n : Nat) : List Nat :=
  (List.range n).map (fun k => readByte buffer (i + k))

/-- A 32-bit pattern read as a C `int`. -/
def toInt32 (n : Nat) : Int :=
  if n % 2 ^ 32 < 2 ^ 31 then (n % 2 ^ 32 : Nat) else ((n % 2 ^ 32 : Nat) : Int) - 2 ^ 32

/-- A 64-bit pattern read as a `LONGLONG`. -/
def toInt64 (n : Nat) : Int :=
  if n % 2 ^ 64 < 2 ^ 63 then (n % 2 ^ 64 : Nat) else ((n % 2 ^ 64 : Nat) : Int) - 2 ^ 64

/-- The statement `count++` on a C `int`: the value after it, which wraps from
`2^31 - 1` to `-2^31`. -/
def intIncr (n : Int) : Int := if n = 2147483647 then -2147483648 else n + 1

/-- Subtraction on a `DWORD`: the difference modulo `2^32`, which wraps when
`b` is above `a`. -/
def dwordSub (a b : Nat) : Nat :=
  if b % 2 ^ 32 ≤ a % 2 ^ 32 then a % 2 ^ 32 - b % 2 ^ 32
  else a % 2 ^ 32 + 2 ^ 32 - b % 2 ^ 32

/-! ## Data -/

/-- The fields of `USN_JOURNAL_DATA` that the program reads. -/
structure USN_JOURNAL_DATA where
  UsnJournalID : Nat
  FirstUsn : Int
  NextUsn : Int
  LowestValidUsn : Int
  MaxUsn : Int
  MaximumSize : Nat
  AllocationDelta : Nat
  MinSupportedMajorVersion : Nat
  MaxSupportedMajorVersion : Nat
deriving DecidableEq

/-- The request block `READ_USN_JOURNAL_DATA` of `FSCTL_READ_USN_JOURNAL`. -/
structure READ_USN_JOURNAL_DATA where
  StartUsn : Int
  ReasonMask : Nat
  ReturnOnlyOnClose : Nat
  Timeout : Nat
  BytesToWaitFor : Nat
  UsnJournalID : Nat
  MinMajorVersion : Nat
  MaxMajorVersion : Nat
deriving DecidableEq

/-- The structure `SYSTEMTIME`. -/
structure SYSTEMTIME where
  wYear : Nat
  wMonth : Nat
  wDayOfWeek : Nat
  wDay : Nat
  wHour : Nat
  wMinute : Nat
  wSecond : Nat
  wMilliseconds : Nat
deriving DecidableEq

/-- The arguments of the `wprintf` call of `_UsnpFormatRecordV3`, in the order
of the lines it prints. `cchfilename` is the precision of `%.*s` and
`fileName` the code units that `%.*s` prints. -/
structure RecordText where
  frnHigh : Nat
  frnLow : Nat
  parentHigh : Nat
  parentLow : Nat
  parentPath : String
  usn : Nat
  reason : Nat
  attributes : Nat
  cchfilename : Nat
  fileName : List Nat
  timeStamp : Nat
  timeText : String
deriving DecidableEq

/-- One row of `_UsnpDump`: the row offset, the 16 hex cells (`none` is a
blank cell) and the 16 cells of the ASCII gutter (`none` is a blank). -/
structure DumpRow where
  index : Int
  hex : List (Option Nat)
  ascii : List (Option Nat)
deriving DecidableEq

/-- What the program writes to `stdout`. -/
inductive OutItem where
  | journalData (pathname : String) (data : USN_JOURNAL_DATA)
  | record (text : RecordText)
  | dumpHeader (buffersize : Int)
  | dumpRow (row : DumpRow)
deriving DecidableEq

/-- What the program writes to `stderr`: the message and the status it shows. -/
inductive ErrItem where
  | openFailed (status : Nat)
  | ioctlFailed (status : Nat)
  | formatJournalDataFailed (status : Nat)
  | readJournalRecordsFailed (status : Nat)
  | formatUsnRecordFailed (status : Nat)
deriving DecidableEq

/-- The process state the code reads and writes. -/
structure World where
  lastError : Nat
  stdout : List OutItem
  stderr : List ErrItem
  closed : List Nat
deriving DecidableEq

/-- The call `SetLastError`. -/
def SetLastError (code : Nat) (w : World) : World := { w with lastError := code }

/-- The call `GetLastError`. -/
def GetLastError (w : World) : Nat := w.lastError

/-- The call `CloseHandle`, recorded in `closed`. -/
def CloseHandle (h : Nat) (w : World) : World := { w with closed := w.closed ++ [h] }

/-- The outcome of one `DeviceIoControl(FSCTL_READ_USN_JOURNAL)`: failure with
the last-error value it sets, or the bytes written to the start of the output
buffer (their number is what the call stores in `bytes`). -/
inductive FetchResult where
  | failure (lastError : Nat)
  | success (data : List Nat)
deriving DecidableEq

/-- A handle returned by a Win32 call and the last-error value the call sets,
if it sets one. -/
structure HandleResult where
  handle : Nat
  error : Option Nat
deriving DecidableEq

/-- The globals of `j0.c` and the Win32 calls it makes. -/
structure Env where
  sdk : Platform
  g_dump : Int
  g_count : Int
  monitor_fid : List Nat
  /-- The call `CreateFileW` on the volume name. -/
  CreateFileW : String → HandleResult
  /-- The call `DeviceIoControl(FSCTL_QUERY_USN_JOURNAL)` on a handle: the
  journal data, or the last-error value. -/
  QueryUsnJournal : Nat → Except Nat USN_JOURNAL_DATA
  /-- The call `DeviceIoControl(FSCTL_READ_USN_JOURNAL)`: the handle, the
  number of fetches made before this one, the request. -/
  ReadUsnJournal : Nat → Nat → READ_USN_JOURNAL_DATA → FetchResult
  /-- The call `OpenFileById` on the volume handle and a 16-byte identifier. -/
  OpenFileById : Nat → List Nat → HandleResult
  /-- The call `GetFinalPathNameByHandleW` on a handle and a buffer size: the
  length it returns and the text it leaves in the buffer. -/
  GetFinalPathNameByHandleW : Nat → Nat → Nat × String
  /-- The call `FileTimeToSystemTime` on `dwLowDateTime`, `dwHighDateTime`:
  the calendar time, or the last-error value. -/
  FileTimeToSystemTime : Nat → Nat → Except Nat SYSTEMTIME

/-! ## Text -/

/-- One hexadecimal digit, upper case. -/
def hexDigit (d : Nat) : Char :=
  if d < 10 then Char.ofNat (48 + d) else Char.ofNat (55 + d)

/-- The eight hexadecimal digits of a 32-bit value, most significant first. -/
def hexNibbles (n : Nat) : List Nat :=
  [n / 268435456 % 16, n / 16777216 % 16, n / 1048576 % 16, n / 65536 % 16,
   n / 4096 % 16, n / 256 % 16, n / 16 % 16, n % 16]

/-- The conversion `%X` of an `unsigned int`: upper-case hexadecimal without
leading zeros. -/
def formatX (n : Nat) : String :=
  let ds := (hexNibbles (n % 2 ^ 32)).dropWhile (fun d => d == 0)
  String.mk ((if ds.isEmpty then [0] else ds).map hexDigit)

/-- The conversion `%0<width>u`: decimal, padded with zeros to `width`. -/
def formatU (width n : Nat) : List Char :=
  let ds := Nat.toDigits 10 n
  List.replicate (width - ds.length) (Char.ofNat 48) ++ ds

/-- The text that `_snwprintf_s(..., L"[error(%X)]", code)` writes. It is at
most 17 characters and the buffers it is written to hold `MAX_PATH`. -/
def errorText (code : Nat) : String := "[error(" ++ formatX code ++ ")]"

/-- The text of the format `%u-%02u-%02u %02u:%02u:%02u.%03u` of
`_UsnpFormatTimestamp`. -/
def timestampText (t : SYSTEMTIME) : String :=
  String.mk (formatU 1 t.wYear ++ [Char.ofNat 45] ++ formatU 2 t.wMonth ++ [Char.ofNat 45]
    ++ formatU 2 t.wDay ++ [Char.ofNat 32] ++ formatU 2 t.wHour ++ [Char.ofNat 58]
    ++ formatU 2 t.wMinute ++ [Char.ofNat 58] ++ formatU 2 t.wSecond ++ [Char.ofNat 46]
    ++ formatU 3 t.wMilliseconds)

/-! ## File identifiers -/

/-- The C function `memcmp` on `n` bytes of `a` and `b` from index `i`: zero
when they are equal, else the sign of the first difference. -/
def memcmp (a b : List Nat) (i : Nat) : Nat → Int
  | 0 => 0
  | n + 1 =>
    if readByte a i = readByte b i then memcmp a b (i + 1) n
    else if readByte a i < readByte b i then -1 else 1

/-- The function `_UsnpIsEqualFileReference`. -/
def _UsnpIsEqualFileReference (env : Env) (pfid1 pfid2 : Option (List Nat)) (w : World) :
    Bool × World :=
  match pfid1, pfid2 with
  | some fid1, some fid2 =>
    if memcmp fid1 fid2 0 sizeofFileId128 = 0 then (true, w) else (false, w)
  | _, _ => (false, SetLastError env.sdk.ERROR_INVALID_PARAMETER w)

/-- The function `_UsnpGetFilenameFromFileId`; `buffer` is the content of the
output buffer before the call, the `String` returned its content after. -/
def _UsnpGetFilenameFromFileId (env : Env) (osh : Nat) (pFileId : Option (List Nat))
    (buffer : Option String) (cchbuffer : Nat) (w : World) : Bool × String × World :=
  match pFileId, buffer with
  | some fid, some text0 =>
    let r := env.OpenFileById osh (readBytes fid 0 sizeofFileId128)
    let w1 := match r.error with
      | some e => SetLastError e w
      | none => w
    if r.handle = 0 then
      (false, text0, w1)
    else
      let (length, text) := env.GetFinalPathNameByHandleW r.handle (cchbuffer % 2 ^ 32)
      let w2 := CloseHandle r.handle w1
      if length = 0 ∨ length > cchbuffer then
        (false, text, SetLastError env.sdk.ERROR_INSUFFICIENT_BUFFER w2)
      else
        (true, text, w2)
  | _, _ => (false, buffer.getD "", SetLastError env.sdk.ERROR_INVALID_PARAMETER w)

/-! ## Timestamps -/

/-- The function `_UsnpFormatTimestamp`; `pTimeStamp` is the 64-bit pattern of
the `LARGE_INTEGER`, `buffer` the content of the output buffer before the call. -/
def _UsnpFormatTimestamp (env : Env) (pTimeStamp : Option Nat) (buffer : Option String)
    (cchbuffer : Nat) (w : World) : Bool × String × World :=
  match pTimeStamp, buffer with
  | some ts, some text0 =>
    match env.FileTimeToSystemTime (ts % 2 ^ 32) (ts / 2 ^ 32 % 2 ^ 32) with
    | .error e => (false, text0, SetLastError e w)
    | .ok systime =>
      let text := timestampText systime
      if text.length ≥ cchbuffer then
        (false, String.mk (text.data.take (cchbuffer - 1)),
          SetLastError env.sdk.ERROR_INSUFFICIENT_BUFFER w)
      else
        (true, text, w)
  | _, _ => (false, buffer.getD "", SetLastError env.sdk.ERROR_INVALID_PARAMETER w)

/-! ## Hex dump -/

/-- The number of passes of the loop `for(index=0; index<buffersize; index += 16)`. -/
def dumpRowCount (buffersize : Int) : Nat := ((buffersize + 15) / 16).toNat

/-- One pass of the outer loop of `_UsnpDump`, at row offset `index`. In the
gutter the byte is read before the test against `buffersize`. -/
def dumpRow (rd : Nat → Nat) (buffersize : Int) (index : Nat) : DumpRow where
  index := index
  hex := (List.range 16).map (fun jndex =>
    if ((index + jndex : Nat) : Int) < buffersize then some (rd (index + jndex)) else none)
  ascii := (List.range 16).map (fun kndex =>
    let ch := rd (index + kndex)
    if ((index + kndex : Nat) : Int) < buffersize then
      some (if ch < 0x20 ∨ ch > 0x7F then 46 else ch)
    else none)

/-- The function `_UsnpDump`; `buffer` reads the byte at an index from the
pointer passed. -/
def _UsnpDump (env : Env) (buffer : Option (Nat → Nat)) (buffersize : Int) (w : World) :
    Bool × World :=
  match buffer with
  | none => (false, SetLastError env.sdk.ERROR_INVALID_PARAMETER w)
  | some rd =>
    let rows := (List.range (dumpRowCount buffersize)).map
      (fun r => OutItem.dumpRow (dumpRow rd buffersize (16 * r)))
    (true, { w with stdout := w.stdout ++ [OutItem.dumpHeader buffersize] ++ rows })

/-- The cells read one after the other, each `none` when the read is outside
the array: the list of their values, or `none` as soon as one read is outside. -/
def readCells {α : Type} : List (Option α) → Option (List α)
  | [] => some []
  | none :: _ => none
  | some a :: rest => (readCells rest).map (fun values => a :: values)

/-- One pass of the outer loop of `_UsnpDump` with a buffer whose indexing
returns an `Option`: `dumpRow` with every `buffer[...]` of the source read
through `rd`, `none` when one of them is out of range. -/
def dumpRowBounded (rd : Nat → Option Nat) (buffersize : Int) (index : Nat) : Option DumpRow :=
  match readCells ((List.range 16).map (fun jndex =>
      if ((index + jndex : Nat) : Int) < buffersize then (rd (index + jndex)).map some
      else some none)) with
  | none => none
  | some hex =>
    match readCells ((List.range 16).map (fun kndex =>
        (rd (index + kndex)).map (fun ch =>
          if ((index + kndex : Nat) : Int) < buffersize then
            some (if ch < 0x20 ∨ ch > 0x7F then 46 else ch)
          else none))) with
    | none => none
    | some ascii => some { index := index, hex := hex, ascii := ascii }

/-- The function `_UsnpDump` with a buffer whose indexing returns an `Option`:
the result of `_UsnpDump`, or `none` when the function reads a cell that is out
of range. -/
def _UsnpDumpBounded (env : Env) (buffer : Option (Nat → Option Nat)) (buffersize : Int)
    (w : World) : Option (Bool × World) :=
  match buffer with
  | none => some (false, SetLastError env.sdk.ERROR_INVALID_PARAMETER w)
  | some rd =>
    match readCells ((List.range (dumpRowCount buffersize)).map
        (fun r => dumpRowBounded rd buffersize (16 * r))) with
    | none => none
    | some rows =>
      some (true, { w with
        stdout := w.stdout ++ [OutItem.dumpHeader buffersize] ++ rows.map OutItem.dumpRow })

/-! ## Record decoding -/

/-- The function `_UsnpFormatRecordV2`. -/
def _UsnpFormatRecordV2 (env : Env) (_osh : Nat) (pRecord : Option Nat) (w : World) :
    Bool × World :=
  match pRecord with
  | none => (false, SetLastError env.sdk.ERROR_INVALID_PARAMETER w)
  | some _ => (false, SetLastError env.sdk.ERROR_CALL_NOT_IMPLEMENTED w)

/-- The function `_UsnpFormatRecordV4`. -/
def _UsnpFormatRecordV4 (env : Env) (_osh : Nat) (pRecord : Option Nat) (w : World) :
    Bool × World :=
  match pRecord with
  | none => (false, SetLastError env.sdk.ERROR_INVALID_PARAMETER w)
  | some _ => (false, SetLastError env.sdk.ERROR_CALL_NOT_IMPLEMENTED w)

/-- The assignment `cchfilename = (pRecord->FileNameLength / sizeof(wchar_t))`
to a `WORD`. -/
def cchFileName (FileNameLength : Nat) : Nat := (FileNameLength / sizeofWchar) % 2 ^ 16

/-- What `%.*s` prints of the wide string at byte offset `filename`: at most
`cch` code units, up to the first zero. -/
def printedName (buffer : List Nat) (filename cch : Nat) : List Nat :=
  ((List.range cch).map (fun k => rd16 buffer (filename + 2 * k))).takeWhile (fun c => c != 0)

/-- The argument list of the `wprintf` call of `_UsnpFormatRecordV3` for the
record at offset `p`, given the two texts. -/
def recordText (env : Env) (buffer : List Nat) (p : Nat) (path timestamp : String) :
    RecordText where
  frnHigh := rd64 buffer (p + env.sdk.ofsFileReferenceNumber + 8)
  frnLow := rd64 buffer (p + env.sdk.ofsFileReferenceNumber)
  parentHigh := rd64 buffer (p + env.sdk.ofsParentFileReferenceNumber + 8)
  parentLow := rd64 buffer (p + env.sdk.ofsParentFileReferenceNumber)
  parentPath := path
  usn := rd64 buffer (p + env.sdk.ofsUsn)
  reason := rd32 buffer (p + env.sdk.ofsReason)
  attributes := rd32 buffer (p + env.sdk.ofsFileAttributes)
  cchfilename := cchFileName (rd16 buffer (p + env.sdk.ofsFileNameLength))
  fileName := printedName buffer (p + rd16 buffer (p + env.sdk.ofsFileNameOffset))
    (cchFileName (rd16 buffer (p + env.sdk.ofsFileNameLength)))
  timeStamp := rd64 buffer (p + env.sdk.ofsTimeStamp)
  timeText := timestamp

/-- The function `_UsnpFormatRecordV3` on the record at offset `pRecord` of
`buffer`. -/
def _UsnpFormatRecordV3 (env : Env) (osh : Nat) (buffer : List Nat) (pRecord : Option Nat)
    (w : World) : Bool × World :=
  match pRecord with
  | none => (false, SetLastError env.sdk.ERROR_INVALID_PARAMETER w)
  | some p =>
    let parentFid := readBytes buffer (p + env.sdk.ofsParentFileReferenceNumber) sizeofFileId128
    let w0 := (_UsnpIsEqualFileReference env (some parentFid) (some env.monitor_fid) w).2
    let cchtimestamp := MAX_PATH
    let (okT, textT, w1) := _UsnpFormatTimestamp env
      (some (rd64 buffer (p + env.sdk.ofsTimeStamp))) (some "") cchtimestamp w0
    let timestamp := if okT = false then errorText (GetLastError w1) else textT
    let cchbuffer := MAX_PATH
    let (okP, textP, w2) := _UsnpGetFilenameFromFileId env osh (some parentFid) (some "")
      cchbuffer w1
    let path := if okP = false then errorText (GetLastError w2) else textP
    let w3 := { w2 with
      stdout := w2.stdout ++ [OutItem.record (recordText env buffer p path timestamp)] }
    if env.g_dump ≠ 0 then
      let w4 := (_UsnpDump env (some (fun i => readByte buffer (p + i)))
        (toInt32 (rd32 buffer (p + env.sdk.ofsRecordLength))) w3).2
      (true, w4)
    else
      (true, w3)

/-- The function `_UsnpFormatRecord` on the record at offset `pRecord` of
`buffer`. -/
def _UsnpFormatRecord (env : Env) (osh : Nat) (buffer : List Nat) (pRecord : Option Nat)
    (w : World) : Bool × World :=
  match pRecord with
  | none => (false, SetLastError env.sdk.ERROR_INVALID_PARAMETER w)
  | some p =>
    let MajorVersion := rd16 buffer (p + env.sdk.ofsMajorVersion)
    if MajorVersion = 2 then _UsnpFormatRecordV2 env osh (some p) w
    else if MajorVersion = 3 then _UsnpFormatRecordV3 env osh buffer (some p) w
    else if MajorVersion = 4 then _UsnpFormatRecordV4 env osh (some p) w
    else (false, SetLastError env.sdk.ERROR_INVALID_DATA w)

/-! ## The journal reader -/

/-- The variables of the record walk of `_UsnpReadJournalRecords`: the
remaining-bytes counter `bytes`, the record pointer, the record counter, the
process state. `decoded` is a log kept for the proofs: the offset of every
record handed to `_UsnpFormatRecord`, with the result of the call. -/
structure Walk where
  bytes : Nat
  pRecord : Nat
  count : Int
  decoded : List (Nat × Bool)
  world : World
deriving DecidableEq

/-- How the loop `while(bytes > 0)` is left: its condition fails, or the
`return TRUE` of the record limit is taken. -/
inductive WalkEnd where
  | chunkDone
  | limit
deriving DecidableEq

/-- The first statement of the body of the loop `while(bytes > 0)`: the call
of `_UsnpFormatRecord` on the record at `pRecord` and, when it returns `FALSE`,
the message on `stderr`. The result is that of `_UsnpFormatRecord`. -/
def decodeRecord (env : Env) (osh : Nat) (buffer : List Nat) (pRecord : Nat) (w : World) :
    Bool × World :=
  let (ok, w1) := _UsnpFormatRecord env osh buffer (some pRecord) w
  if ok = false then
    (ok, { w1 with stderr := w1.stderr ++ [ErrItem.formatUsnRecordFailed (GetLastError w1)] })
  else (ok, w1)

/-- The loop `while(bytes > 0)` of `_UsnpReadJournalRecords`, one unit of fuel
for every pass; `none` when the fuel ends before the loop does. The test
`count++ > g_count` compares the counter and then increments it. -/
def walkChunk (env : Env) (osh : Nat) (buffer : List Nat) : Nat → Walk → Option (WalkEnd × Walk)
  | 0, s => if s.bytes > 0 then none else some (WalkEnd.chunkDone, s)
  | fuel + 1, s =>
    if s.bytes > 0 then
      let r := decodeRecord env osh buffer s.pRecord s.world
      let decoded := s.decoded ++ [(s.pRecord, r.1)]
      if s.count > env.g_count then
        some (WalkEnd.limit,
          { s with count := intIncr s.count, decoded := decoded,
                   world := SetLastError env.sdk.ERROR_IMPLEMENTATION_LIMIT r.2 })
      else
        let RecordLength := rd32 buffer (s.pRecord + env.sdk.ofsRecordLength)
        walkChunk env osh buffer fuel
          { bytes := dwordSub s.bytes RecordLength, pRecord := s.pRecord + RecordLength,
            count := intIncr s.count, decoded := decoded, world := r.2 }
    else some (WalkEnd.chunkDone, s)

/-- The number of passes of the loop `while(bytes > 0)` after which the limit
test succeeds, when the loop starts with the counter at `count` and `g_count`
is below `2^31 - 1`: the test succeeds once the counter is above `g_count`. -/
def walkFuel (env : Env) (count : Int) : Nat := (env.g_count + 1 - count).toNat + 1

/-- The loop `while(bytes > 0)` with `walkFuel` passes allowed. -/
def walkRecords (env : Env) (osh : Nat) (buffer : List Nat) (s : Walk) : Option (WalkEnd × Walk) :=
  walkChunk env osh buffer (walkFuel env s.count) s

/-- The chunk buffer after `RtlZeroMemory` and a fetch that wrote `data`: the
call writes no more than the buffer holds. -/
def chunkBuffer (sdk : Platform) (data : List Nat) : List Nat :=
  data.take (_USN_BUFFER_SIZE sdk) ++ List.replicate (_USN_BUFFER_SIZE sdk - data.length) 0

/-- The variables of the loop `while(1)` of `_UsnpReadJournalRecords`.
`requests` and `decoded` are logs kept for the proofs: the request block of
every fetch made, and the records handed to `_UsnpFormatRecord`. -/
structure Reader where
  ReadData : READ_USN_JOURNAL_DATA
  count : Int
  requests : List READ_USN_JOURNAL_DATA
  decoded : List (Nat × Bool)
  world : World
deriving DecidableEq

/-- The loop `while(1)` of `_UsnpReadJournalRecords`, one unit of fuel for
every fetch; the walk of a chunk is allowed `walkFuel` passes and one more for
every unit of fuel left. The result is `some status` when the function returned
`status`, `none` when it has not returned within the fuel. -/
def readLoop (env : Env) (osh : Nat) : Nat → Reader → Option Bool × Reader
  | 0, r => (none, r)
  | fuel + 1, r =>
    match env.ReadUsnJournal osh r.requests.length r.ReadData with
    | FetchResult.failure e =>
      (some false,
        { r with requests := r.requests ++ [r.ReadData], world := SetLastError e r.world })
    | FetchResult.success data =>
      let buffer := chunkBuffer env.sdk data
      let bytes := dwordSub (min data.length (_USN_BUFFER_SIZE env.sdk)) sizeofUSN
      match walkChunk env osh buffer (walkFuel env r.count + fuel)
          { bytes := bytes, pRecord := sizeofUSN, count := r.count,
            decoded := r.decoded, world := r.world } with
      | none => (none, { r with requests := r.requests ++ [r.ReadData] })
      | some (WalkEnd.limit, s) =>
        (some true,
          { r with count := s.count, requests := r.requests ++ [r.ReadData],
                   decoded := s.decoded, world := s.world })
      | some (WalkEnd.chunkDone, s) =>
        readLoop env osh fuel
          { ReadData := { r.ReadData with StartUsn := toInt64 (rd64 buffer 0) },
            count := s.count, requests := r.requests ++ [r.ReadData],
            decoded := s.decoded, world := s.world }

/-- The function `_UsnpReadJournalRecords`, with the fuel of `readLoop`. -/
def _UsnpReadJournalRecords (env : Env) (fuel : Nat) (osh : Nat)
    (pJournalData : Option USN_JOURNAL_DATA) (StartUsn : Int) (Reason : Nat) (w : World) :
    Option Bool × Reader :=
  match pJournalData with
  | none =>
    (some false,
      { ReadData := ⟨0, 0, 0, 0, 0, 0, 0, 0⟩, count := 0, requests := [], decoded := [],
        world := SetLastError env.sdk.ERROR_INVALID_PARAMETER w })
  | some JournalData =>
    readLoop env osh fuel
      { ReadData :=
          { StartUsn := StartUsn, ReasonMask := Reason, ReturnOnlyOnClose := 0, Timeout := 0,
            BytesToWaitFor := 0, UsnJournalID := JournalData.UsnJournalID,
            MinMajorVersion := JournalData.MinSupportedMajorVersion,
            MaxMajorVersion := JournalData.MaxSupportedMajorVersion },
        count := 0, requests := [], decoded := [], world := w }

/-- The function `_UsnpFormatJournalData`. -/
def _UsnpFormatJournalData (env : Env) (pathname : Option String)
    (pJournalData : Option USN_JOURNAL_DATA) (w : World) : Bool × World :=
  match pathname, pJournalData with
  | some path, some JournalData =>
    (true, { w with stdout := w.stdout ++ [OutItem.journalData path JournalData] })
  | _, _ => (false, SetLastError env.sdk.ERROR_INVALID_PARAMETER w)

/-- The array `diskname` after `diskname[4] = *pathname`: the text
`\\.\?:` with the first character of `pathname` in place of `?`; an empty
`pathname` stores the terminator there. -/
def diskname (pathname : String) : String :=
  match pathname.data with
  | [] => String.mk [Char.ofNat 92, Char.ofNat 92, Char.ofNat 46, Char.ofNat 92]
  | c :: _ => String.mk [Char.ofNat 92, Char.ofNat 92, Char.ofNat 46, Char.ofNat 92, c,
      Char.ofNat 58]

/-- The function `_UsnpReadJournalData`, with `fuel` fetches allowed to
`_UsnpReadJournalRecords`; the result is `none` when that call is still
running after `fuel` fetches. -/
def _UsnpReadJournalData (env : Env) (fuel : Nat) (pathname : Option String) (Reason : Nat)
    (w : World) : Option Bool × World :=
  match pathname with
  | none => (some false, SetLastError env.sdk.ERROR_INVALID_PARAMETER w)
  | some path =>
    let opened := env.CreateFileW (diskname path)
    let w1 := match opened.error with
      | some e => SetLastError e w
      | none => w
    let osh := opened.handle
    if osh = env.sdk.INVALID_HANDLE_VALUE then
      (some false, { w1 with stderr := w1.stderr ++ [ErrItem.openFailed (GetLastError w1)] })
    else
      match env.QueryUsnJournal osh with
      | .error e =>
        let w2 := SetLastError e w1
        (some false, { w2 with stderr := w2.stderr ++ [ErrItem.ioctlFailed (GetLastError w2)] })
      | .ok JournalData =>
        let (status, w2) := _UsnpFormatJournalData env (some (diskname path)) (some JournalData) w1
        if status = false then
          let w3 := { w2 with
            stderr := w2.stderr ++ [ErrItem.formatJournalDataFailed (GetLastError w2)] }
          (some false, CloseHandle osh w3)
        else
          match _UsnpReadJournalRecords env fuel osh (some JournalData) 0 Reason w2 with
          | (none, r) => (none, r.world)
          | (some false, r) =>
            let w3 := { r.world with
              stderr := r.world.stderr ++ [ErrItem.readJournalRecordsFailed (GetLastError r.world)] }
            (some false, CloseHandle osh w3)
          | (some true, r) => (some true, CloseHandle osh r.world)

/-! ## Well-formed chunks -/

/-- The offsets of records packed back to back from `start`, given their
lengths: each is `start` plus the sum of the lengths before it. -/
def recordOffsets (start : Nat) : List Nat → List Nat
  | [] => []
  | len :: lens => start :: recordOffsets (start + len) lens

/-- The bytes of `buffer` from offset `p` are records packed back to back
whose declared `RecordLength`s are `lens`, each positive. -/
def Packed (env : Env) (buffer : List Nat) : Nat → List Nat → Prop
  | _, [] => True
  | p, len :: lens =>
    rd32 buffer (p + env.sdk.ofsRecordLength) = len ∧ 0 < len ∧ Packed env buffer (p + len) lens

/-- Request `next` follows request `req`, the request of fetch number `N`: that
fetch succeeded, and `next` is `req` with `StartUsn` replaced by the 64-bit
value in the first 8 bytes of the buffer the fetch returned. -/
def CursorLink (env : Env) (osh N : Nat) (req next : READ_USN_JOURNAL_DATA) : Prop :=
  ∃ data, env.ReadUsnJournal osh N req = FetchResult.success data ∧
    next = { req with StartUsn := toInt64 (rd64 (chunkBuffer env.sdk data) 0) }

/-- From fetch number `n` on the provider supplies the chunks of the list, one
for every fetch and whatever the request: each entry is the bytes returned and
the lengths of the records in them, which are packed back to back after the
8-byte cursor, declare positive lengths and fill the chunk. -/
def Supplies (env : Env) (osh : Nat) : Nat → List (List Nat × List Nat) → Prop
  | _, [] => True
  | n, (data, lens) :: rest =>
    (∀ req, env.ReadUsnJournal osh n req = FetchResult.success data) ∧
      data.length ≤ _USN_BUFFER_SIZE env.sdk ∧ data.length < 2 ^ 32 ∧
      Packed env (chunkBuffer env.sdk data) sizeofUSN lens ∧
      sizeofUSN + lens.sum = data.length ∧ Supplies env osh (n + 1) rest

/-- The number of records in a list of chunks. -/
def recordCount (chunks : List (List Nat × List Nat)) : Nat :=
  (chunks.map (fun chunk => chunk.2.length)).sum

/-- The record texts among the items written to `stdout`. -/
def printedRecords (out : List OutItem) : List RecordText :=
  out.filterMap (fun item => match item with
    | OutItem.record text => some text
    | _ => none)

/-! ## Sample inputs -/

/-- The `width` little-endian bytes of `n`. -/
def leBytes (width n : Nat) : List Nat := (List.range width).map (fun k => n / 256 ^ k % 256)

/-- A record of `len` bytes laid out as a `USN_RECORD_V3` of `winsdk`, with
the given major version, parent identifier and file name; the fields that do
not fit in `len` bytes are cut. -/
def sampleRecord (len major parentLow : Nat) (name : List Nat) : List Nat :=
  let fields := leBytes 4 len ++ leBytes 2 major ++ leBytes 2 0 ++ leBytes 8 0x2400000009D875
    ++ leBytes 8 0 ++ leBytes 8 parentLow ++ leBytes 8 0 ++ leBytes 8 0x498241F98
    ++ leBytes 8 0x01D63C5D4ABBA32B ++ leBytes 4 0x80000102 ++ leBytes 4 0 ++ leBytes 4 0
    ++ leBytes 4 0x120 ++ leBytes 2 (2 * name.length) ++ leBytes 2 76 ++ name.flatMap (leBytes 2)
  (fields ++ List.replicate (len - fields.length) 0).take len

/-- A chunk of three records of 60, 72 and 88 bytes: 228 bytes with the cursor. -/
def chunk607288 : List Nat :=
  leBytes 8 0x498242000 ++ sampleRecord 60 3 1 [] ++ sampleRecord 72 3 2 []
    ++ sampleRecord 88 3 3 [97, 98]

/-- A chunk of three version-3 records of 80, 80 and 88 bytes, with parent
identifiers 1, 2 and 3. -/
def chunkThreeV3 : List Nat :=
  leBytes 8 0x498242000 ++ sampleRecord 80 3 1 [97] ++ sampleRecord 80 3 2 [98]
    ++ sampleRecord 88 3 3 [99, 100, 101]

/-- A chunk of three records of 80, 80 and 88 bytes with major versions 2, 7
and 3. -/
def chunkMixedVersions : List Nat :=
  leBytes 8 0x498242000 ++ sampleRecord 80 2 1 [97] ++ sampleRecord 80 7 1 [98]
    ++ sampleRecord 88 3 3 [99, 100, 101]

/-- A chunk of one record of 80 bytes that declares a `RecordLength` of 0. -/
def chunkZeroLength : List Nat :=
  leBytes 8 0x498242000 ++ leBytes 4 0 ++ (sampleRecord 80 3 1 [97]).drop 4

/-- A chunk of 68 bytes whose only record declares a `RecordLength` of 80: 20
more than the 60 bytes of payload. -/
def chunkOversized : List Nat :=
  (leBytes 8 0x498242000 ++ sampleRecord 80 3 1 [97]).take 68

/-- A chunk that holds the 8-byte cursor and no record. -/
def chunkEmpty : List Nat := leBytes 8 0x498242000

/-- A version-3 record of 88 bytes that declares a `FileNameLength` of 5. -/
def recordOddName : List Nat := (sampleRecord 88 3 1 [97, 98, 99]).set 72 5

/-- Journal data of a sample volume. -/
def sampleJournal : USN_JOURNAL_DATA where
  UsnJournalID := 0x1D63C5D00000000
  FirstUsn := 0
  NextUsn := 0x498242000
  LowestValidUsn := 0
  MaxUsn := 0x7FFFFFFFFFFF0000
  MaximumSize := 0x2000000
  AllocationDelta := 0x800000
  MinSupportedMajorVersion := 2
  MaxSupportedMajorVersion := 4

/-- A system with the default globals of `j0.c`: the volume opens as handle
100, the first fetch returns `chunkThreeV3` and the second fails with
`ERROR_HANDLE_EOF` (38); `OpenFileById` fails for the identifier 2 and
returns handle 200 for every other. -/
def sampleEnv : Env where
  sdk := winsdk
  g_dump := 0
  g_count := 23
  monitor_fid := leBytes 16 0xD0000000A0CD9
  CreateFileW := fun _ => ⟨100, none⟩
  QueryUsnJournal := fun _ => .ok sampleJournal
  ReadUsnJournal := fun _ n _ => if n = 0 then .success chunkThreeV3 else .failure 38
  OpenFileById := fun _ fid => if rd64 fid 0 = 2 then ⟨2 ^ 64 - 1, some 87⟩ else ⟨200, none⟩
  GetFinalPathNameByHandleW := fun h _ => if h = 200 then (7, "C:/Temp") else (0, "")
  FileTimeToSystemTime := fun _ _ => .ok ⟨2020, 6, 6, 6, 23, 50, 43, 744⟩

/-- The system `sampleEnv` with the record limit `g_count` set to 0. -/
def budgetZeroEnv : Env := { sampleEnv with g_count := 0 }

/-- The system `sampleEnv` with the record limit `g_count` set to 2. -/
def budgetTwoEnv : Env := { sampleEnv with g_count := 2 }

/-- The system `sampleEnv` with a journal that is not active: the query fails
with `ERROR_JOURNAL_NOT_ACTIVE` (1179). -/
def notActiveEnv : Env := { sampleEnv with QueryUsnJournal := fun _ => .error 1179 }

/-- The system `sampleEnv` with a provider that has no more data: every fetch
succeeds and returns `chunkEmpty`. -/
def idleEnv : Env := { sampleEnv with ReadUsnJournal := fun _ _ _ => .success chunkEmpty }

/-- The system `sampleEnv` with a provider that returns `chunkEmpty` twice and
then fails with `ERROR_HANDLE_EOF` (38). -/
def idleThenFailEnv : Env :=
  { sampleEnv with
    ReadUsnJournal := fun _ n _ => if n < 2 then .success chunkEmpty else .failure 38 }

/-- The system `sampleEnv` with the record limit `g_count` set to 2 and a
provider that returns `chunkThreeV3`, then `chunk607288`, then fails. -/
def twoChunkEnv : Env :=
  { sampleEnv with
    g_count := 2
    ReadUsnJournal := fun _ n _ =>
      if n = 0 then .success chunkThreeV3
      else if n = 1 then .success chunk607288 else .failure 38 }

/-- The system `sampleEnv` with the record limit `g_count` set to `2^31 - 1`,
the largest `int`, and a provider that returns `chunkThreeV3` at every fetch. -/
def budgetMaxEnv : Env :=
  { sampleEnv with
    g_count := 2147483647
    ReadUsnJournal := fun _ _ _ => .success chunkThreeV3 }

/-- The system `sampleEnv` with the record limit `g_count` set to -3. -/
def budgetNegativeEnv : Env := { sampleEnv with g_count := -3 }

/-- A buffer of 17 bytes: the letters `A` to `P` and the byte `0x7F`. -/
def bytesWithDel : List Nat :=
  [65, 66, 67, 68, 69, 70, 71, 72, 73, 74, 75, 76, 77, 78, 79, 80, 127]

/-- The process state at the start of a run. -/
def startWorld : World where
  lastError := 0
  stdout := []
  stderr := []
  closed := []

/-! # Theorems -/

set_option maxRecDepth 100000

/-! ## Arithmetic of the memory model -/

theorem readByte_lt (buffer : List Nat) (i : Nat) : readByte buffer i < 256 :=
  Nat.mod_lt _ (by norm_num)

theorem rd16_lt (buffer : List Nat) (i : Nat) : rd16 buffer i < 65536 := by
  have h0 := readByte_lt buffer i
  have h1 := readByte_lt buffer (i + 1)
  unfold rd16; omega

theorem rd32_lt (buffer : List Nat) (i : Nat) : rd32 buffer i < 2 ^ 32 := by
  have h0 := rd16_lt buffer i
  have h1 := rd16_lt buffer (i + 2)
  unfold rd32; norm_num; omega

theorem dwordSub_of_le {a b : Nat} (ha : a < 2 ^ 32) (hb : b ≤ a) : dwordSub a b = a - b := by
  unfold dwordSub
  have hb' : b < 2 ^ 32 := lt_of_le_of_lt hb ha
  rw [Nat.mod_eq_of_lt ha, Nat.mod_eq_of_lt hb', if_pos hb]

theorem dwordSub_of_lt {a b : Nat} (hb : b < 2 ^ 32) (hab : a < b) :
    dwordSub a b = a + 2 ^ 32 - b := by
  unfold dwordSub
  have ha : a < 2 ^ 32 := lt_trans hab hb
  rw [Nat.mod_eq_of_lt ha, Nat.mod_eq_of_lt hb, if_neg (by omega)]

theorem dwordSub_eq_mod (a b : Nat) :
    dwordSub a b = (a % 2 ^ 32 + 2 ^ 32 - b % 2 ^ 32) % 2 ^ 32 := by
  unfold dwordSub
  have ha : a % 2 ^ 32 < 2 ^ 32 := Nat.mod_lt _ (by norm_num)
  have hb : b % 2 ^ 32 < 2 ^ 32 := Nat.mod_lt _ (by norm_num)
  split <;> omega

theorem recordOffsets_eq (start : Nat) (lens : List Nat) :
    recordOffsets start lens
      = (List.range lens.length).map (fun i => start + (lens.take i).sum) := by
  induction lens generalizing start with
  | nil => simp [recordOffsets]
  | cons len lens ih =>
    rw [recordOffsets, ih, List.length_cons, List.range_succ_eq_map]
    simp [List.map_map, Function.comp_def, Nat.add_assoc]

/-! ## The counter -/

theorem intIncr_of_lt {n : Int} (h : n < 2147483647) : intIncr n = n + 1 := by
  unfold intIncr
  rw [if_neg (by omega)]

theorem intIncr_le (n : Int) : intIncr n ≤ n + 1 := by
  unfold intIncr
  split <;> omega

theorem intIncr_le_max {n : Int} (h : n ≤ 2147483647) : intIncr n ≤ 2147483647 := by
  unfold intIncr
  split <;> omega

/-! ## One pass of the record walk -/

theorem walkChunk_pass (env : Env) (osh : Nat) (buffer : List Nat) (fuel : Nat) (s : Walk)
    (hbytes : 0 < s.bytes) (hcount : s.count ≤ env.g_count) :
    walkChunk env osh buffer (fuel + 1) s
      = walkChunk env osh buffer fuel
          { bytes := dwordSub s.bytes (rd32 buffer (s.pRecord + env.sdk.ofsRecordLength)),
            pRecord := s.pRecord + rd32 buffer (s.pRecord + env.sdk.ofsRecordLength),
            count := intIncr s.count,
            decoded := s.decoded ++
              [(s.pRecord, (decodeRecord env osh buffer s.pRecord s.world).1)],
            world := (decodeRecord env osh buffer s.pRecord s.world).2 } := by
  have hc : ¬ env.g_count < s.count := not_lt.mpr hcount
  simp only [walkChunk, gt_iff_lt, hbytes, if_true, hc, if_false]

theorem walkChunk_limit (env : Env) (osh : Nat) (buffer : List Nat) (fuel : Nat) (s : Walk)
    (hbytes : 0 < s.bytes) (hcount : env.g_count < s.count) :
    walkChunk env osh buffer (fuel + 1) s
      = some (WalkEnd.limit,
          { bytes := s.bytes, pRecord := s.pRecord, count := intIncr s.count,
            decoded := s.decoded ++
              [(s.pRecord, (decodeRecord env osh buffer s.pRecord s.world).1)],
            world := SetLastError env.sdk.ERROR_IMPLEMENTATION_LIMIT
              (decodeRecord env osh buffer s.pRecord s.world).2 }) := by
  simp only [walkChunk, gt_iff_lt, hbytes, if_true, hcount]

theorem walkChunk_done (env : Env) (osh : Nat) (buffer : List Nat) (fuel : Nat) (s : Walk)
    (hbytes : s.bytes = 0) :
    walkChunk env osh buffer fuel s = some (WalkEnd.chunkDone, s) := by
  cases fuel <;> simp [walkChunk, hbytes]

/-- A walk that ends within its fuel ends the same way with more fuel. -/
theorem walkChunk_mono (env : Env) (osh : Nat) (buffer : List Nat) :
    ∀ (fuel : Nat) (s : Walk) (x : WalkEnd × Walk),
      walkChunk env osh buffer fuel s = some x →
      ∀ k, walkChunk env osh buffer (fuel + k) s = some x := by
  intro fuel
  induction fuel with
  | zero =>
    intro s x h k
    by_cases hb : s.bytes = 0
    · rw [walkChunk_done env osh buffer 0 s hb] at h
      rw [walkChunk_done env osh buffer _ s hb]; exact h
    · have hpos : 0 < s.bytes := Nat.pos_of_ne_zero hb
      simp [walkChunk, hpos] at h
  | succ fuel ih =>
    intro s x h k
    by_cases hb : s.bytes = 0
    · rw [walkChunk_done env osh buffer _ s hb] at h
      rw [walkChunk_done env osh buffer _ s hb]; exact h
    · have hpos : 0 < s.bytes := Nat.pos_of_ne_zero hb
      rw [show fuel + 1 + k = (fuel + k) + 1 by omega]
      by_cases hc : env.g_count < s.count
      · rw [walkChunk_limit env osh buffer fuel s hpos hc] at h
        rw [walkChunk_limit env osh buffer (fuel + k) s hpos hc]; exact h
      · rw [walkChunk_pass env osh buffer fuel s hpos (by omega)] at h
        rw [walkChunk_pass env osh buffer (fuel + k) s hpos (by omega)]
        exact ih _ x h k

/-- The walk of a chunk of well-formed records within the record limit: every
record is decoded and the loop is left by its condition. The counter advances
by at most the number of records, and by exactly that number when `g_count` is
below `2^31 - 1`. -/
theorem walkChunk_packed (env : Env) (osh : Nat) (buffer : List Nat) :
    ∀ (lens : List Nat) (fuel : Nat) (s : Walk),
      Packed env buffer s.pRecord lens → s.bytes = lens.sum → s.bytes < 2 ^ 32 →
      s.count + lens.length ≤ env.g_count + 1 → lens.length ≤ fuel →
      ∃ s', walkChunk env osh buffer fuel s = some (WalkEnd.chunkDone, s') ∧ s'.bytes = 0 ∧
        s'.pRecord = s.pRecord + lens.sum ∧
        (env.g_count < 2147483647 → s'.count = s.count + lens.length) ∧
        s'.decoded.map Prod.fst = s.decoded.map Prod.fst ++ recordOffsets s.pRecord lens := by
  intro lens
  induction lens with
  | nil =>
    intro fuel s _ hsum _ _ _
    have h0 : s.bytes = 0 := by simpa using hsum
    exact ⟨s, walkChunk_done env osh buffer fuel s h0, h0, by simp, by simp,
      by simp [recordOffsets]⟩
  | cons len lens ih =>
    intro fuel s hpacked hsum hlt hbudget hfuel
    obtain ⟨hlen, hpos, hrest⟩ := hpacked
    simp only [List.sum_cons] at hsum
    simp only [List.length_cons] at hbudget hfuel
    push_cast at hbudget
    cases fuel with
    | zero => omega
    | succ fuel =>
      rw [walkChunk_pass env osh buffer fuel s (by omega) (by omega), hlen]
      have hsub : dwordSub s.bytes len = lens.sum := by
        rw [dwordSub_of_le hlt (by omega)]; omega
      have hincr := intIncr_le s.count
      obtain ⟨s', h1, h2, h3, h4, h5⟩ := ih fuel
        { bytes := dwordSub s.bytes len, pRecord := s.pRecord + len, count := intIncr s.count,
          decoded := s.decoded ++
            [(s.pRecord, (decodeRecord env osh buffer s.pRecord s.world).1)],
          world := (decodeRecord env osh buffer s.pRecord s.world).2 }
        hrest hsub (by simp only; omega) (by simp only; omega) (by omega)
      refine ⟨s', h1, h2, ?_, ?_, ?_⟩
      · rw [h3]; simp only [List.sum_cons]; omega
      · intro hg
        rw [h4 hg]
        simp only [List.length_cons]
        rw [intIncr_of_lt (by omega)]
        push_cast; omega
      · rw [h5]; simp [recordOffsets]

theorem walkFuel_ge (env : Env) (count : Int) (n : Nat)
    (h : count + n ≤ env.g_count + 1) : n ≤ walkFuel env count := by
  unfold walkFuel; omega

/-! ## C1 -/

/-- C1: when the payload of a fetched chunk (the bytes returned less the 8-byte
cursor) is made of records packed back to back with positive declared lengths
`lens` that sum to the payload length, and the record limit is not passed
during the chunk, the record walk of `_UsnpReadJournalRecords` leaves the loop
by its condition with the remaining-bytes counter at 0, having handed to
`_UsnpFormatRecord` exactly those records, in order, record `i` at offset 8
plus the sum of the lengths before it. -/
theorem walk_hands_every_packed_record (env : Env) (osh : Nat) (data lens : List Nat)
    (count : Int) (decoded : List (Nat × Bool)) (w : World)
    (hfit : data.length ≤ _USN_BUFFER_SIZE env.sdk) (hdword : data.length < 2 ^ 32)
    (hpacked : Packed env (chunkBuffer env.sdk data) sizeofUSN lens)
    (hsum : sizeofUSN + lens.sum = data.length)
    (hbudget : count + lens.length ≤ env.g_count + 1) :
    ∃ s', walkRecords env osh (chunkBuffer env.sdk data)
        { bytes := dwordSub (min data.length (_USN_BUFFER_SIZE env.sdk)) sizeofUSN,
          pRecord := sizeofUSN, count := count, decoded := decoded, world := w }
        = some (WalkEnd.chunkDone, s') ∧
      s'.bytes = 0 ∧
      s'.decoded.map Prod.fst
        = decoded.map Prod.fst ++ (List.range lens.length).map (fun i => 8 + (lens.take i).sum) ∧
      s'.decoded.length = decoded.length + lens.length := by
  have hbytes : dwordSub (min data.length (_USN_BUFFER_SIZE env.sdk)) sizeofUSN = lens.sum := by
    rw [Nat.min_eq_left hfit, dwordSub_of_le hdword (by omega)]; omega
  obtain ⟨s', h1, h2, _, _, h5⟩ := walkChunk_packed env osh (chunkBuffer env.sdk data) lens
    (walkFuel env count)
    { bytes := dwordSub (min data.length (_USN_BUFFER_SIZE env.sdk)) sizeofUSN,
      pRecord := sizeofUSN, count := count, decoded := decoded, world := w }
    hpacked hbytes (by simp only; omega) hbudget (walkFuel_ge env count lens.length hbudget)
  refine ⟨s', h1, h2, ?_, ?_⟩
  · rw [h5, recordOffsets_eq]; rfl
  · have h := congrArg List.length h5
    simpa [recordOffsets_eq] using h

/-- C1 on the chunk of three records of 60, 72 and 88 bytes (payload 220):
three records are handed to the decoder, at offsets 8, 68 and 140, and no byte
is left. -/
theorem walk_hands_every_packed_record_witness :
    ∃ s', walkRecords sampleEnv 100 (chunkBuffer winsdk chunk607288)
        { bytes := 220, pRecord := 8, count := 0, decoded := [], world := startWorld }
        = some (WalkEnd.chunkDone, s') ∧
      s'.bytes = 0 ∧ s'.decoded.map Prod.fst = [8, 68, 140] ∧ s'.decoded.length = 3 :=
  walk_hands_every_packed_record sampleEnv 100 chunk607288 [60, 72, 88] 0 [] startWorld
    (by decide) (by decide) ⟨by decide, by decide, by decide, by decide, by decide, by decide,
      trivial⟩ (by decide) (by decide)

/-! ## C8 -/

theorem memcmp_eq_zero_iff (a b : List Nat) :
    ∀ (n i : Nat), memcmp a b i n = 0 ↔ ∀ k, k < n → readByte a (i + k) = readByte b (i + k) := by
  intro n
  induction n with
  | zero => intro i; simp [memcmp]
  | succ n ih =>
    intro i
    by_cases h : readByte a i = readByte b i
    · simp only [memcmp, h, if_true]
      rw [ih (i + 1)]
      constructor
      · intro hk k hlt
        cases k with
        | zero => simpa using h
        | succ k =>
          have := hk k (by omega)
          rwa [Nat.add_assoc, Nat.add_comm 1 k] at this
      · intro hk k hlt
        have := hk (k + 1) (by omega)
        rwa [Nat.add_assoc, Nat.add_comm 1 k]
    · constructor
      · intro h0
        simp only [memcmp, h, if_false] at h0
        split at h0 <;> simp at h0
      · intro hk
        exact absurd (by simpa using hk 0 (by omega)) h

/-- C8: for identifiers `a` and `b` that are not null,
`_UsnpIsEqualFileReference` returns `TRUE` exactly when each of the 16 bytes of
`a` equals the byte of `b` at the same index; so it returns `TRUE` on `(a, a)`
and `FALSE` as soon as one of the 16 bytes differs. It leaves the process state
as it was. -/
theorem isEqualFileReference_iff (env : Env) (a b : List Nat) (w : World) :
    ((_UsnpIsEqualFileReference env (some a) (some b) w).1 = true
        ↔ ∀ i, i < 16 → readByte a i = readByte b i) ∧
      (_UsnpIsEqualFileReference env (some a) (some a) w).1 = true ∧
      (∀ i, i < 16 → readByte a i ≠ readByte b i →
        (_UsnpIsEqualFileReference env (some a) (some b) w).1 = false) ∧
      (_UsnpIsEqualFileReference env (some a) (some b) w).2 = w := by
  have key : ∀ x y : List Nat, (_UsnpIsEqualFileReference env (some x) (some y) w).1 = true
      ↔ ∀ i, i < 16 → readByte x i = readByte y i := by
    intro x y
    have h := memcmp_eq_zero_iff x y 16 0
    simp only [Nat.zero_add] at h
    unfold _UsnpIsEqualFileReference sizeofFileId128
    by_cases h0 : memcmp x y 0 16 = 0
    · simp only [h0, if_true, true_iff]; exact h.mp h0
    · simp only [h0, if_false, Bool.false_eq_true, false_iff]; exact fun hall => h0 (h.mpr hall)
  refine ⟨key a b, (key a a).mpr (fun _ _ => rfl), ?_, ?_⟩
  · intro i hi hne
    cases hres : (_UsnpIsEqualFileReference env (some a) (some b) w).1 with
    | false => rfl
    | true => exact absurd ((key a b).mp hres i hi) hne
  · simp only [_UsnpIsEqualFileReference]
    split <;> rfl

/-! ## C5 -/

/-- C5: on a record that is not null `_UsnpFormatRecord` dispatches on
`MajorVersion`: for 2 and for 4 it returns `FALSE` with last error
`ERROR_CALL_NOT_IMPLEMENTED`, for 3 it returns what `_UsnpFormatRecordV3`
returns, for every other value it returns `FALSE` with last error
`ERROR_INVALID_DATA`; for a version other than 3 nothing is written to
`stdout`. -/
theorem formatRecord_dispatch (env : Env) (osh : Nat) (buffer : List Nat) (p : Nat) (w : World) :
    ((rd16 buffer (p + env.sdk.ofsMajorVersion) = 2 ∨ rd16 buffer (p + env.sdk.ofsMajorVersion) = 4) →
        _UsnpFormatRecord env osh buffer (some p) w
          = (false, SetLastError env.sdk.ERROR_CALL_NOT_IMPLEMENTED w)) ∧
      (rd16 buffer (p + env.sdk.ofsMajorVersion) = 3 →
        _UsnpFormatRecord env osh buffer (some p) w = _UsnpFormatRecordV3 env osh buffer (some p) w) ∧
      ((rd16 buffer (p + env.sdk.ofsMajorVersion) ≠ 2 ∧ rd16 buffer (p + env.sdk.ofsMajorVersion) ≠ 3
          ∧ rd16 buffer (p + env.sdk.ofsMajorVersion) ≠ 4) →
        _UsnpFormatRecord env osh buffer (some p) w
          = (false, SetLastError env.sdk.ERROR_INVALID_DATA w)) ∧
      (rd16 buffer (p + env.sdk.ofsMajorVersion) ≠ 3 →
        (_UsnpFormatRecord env osh buffer (some p) w).1 = false ∧
        (_UsnpFormatRecord env osh buffer (some p) w).2.stdout = w.stdout) := by
  refine ⟨?_, ?_, ?_, ?_⟩
  · rintro (h | h) <;> simp [_UsnpFormatRecord, _UsnpFormatRecordV2, _UsnpFormatRecordV4, h]
  · intro h; simp [_UsnpFormatRecord, h]
  · rintro ⟨h2, h3, h4⟩; simp [_UsnpFormatRecord, h2, h3, h4]
  · intro h3
    by_cases h2 : rd16 buffer (p + env.sdk.ofsMajorVersion) = 2
    · simp [_UsnpFormatRecord, _UsnpFormatRecordV2, h2, SetLastError]
    · by_cases h4 : rd16 buffer (p + env.sdk.ofsMajorVersion) = 4
      · simp [_UsnpFormatRecord, _UsnpFormatRecordV4, h4, SetLastError]
      · simp [_UsnpFormatRecord, h2, h3, h4, SetLastError]

/-- C5 on the first record of the sample chunk, of version 3, and on two
record headers of versions 2 and 7. -/
theorem formatRecord_dispatch_witness :
    _UsnpFormatRecord sampleEnv 100 (chunkBuffer winsdk chunkThreeV3) (some 8) startWorld
        = _UsnpFormatRecordV3 sampleEnv 100 (chunkBuffer winsdk chunkThreeV3) (some 8) startWorld ∧
      _UsnpFormatRecord sampleEnv 100 (leBytes 4 60 ++ leBytes 2 2) (some 0) startWorld
        = (false, SetLastError 120 startWorld) ∧
      _UsnpFormatRecord sampleEnv 100 (leBytes 4 60 ++ leBytes 2 7) (some 0) startWorld
        = (false, SetLastError 13 startWorld) :=
  ⟨(formatRecord_dispatch sampleEnv 100 (chunkBuffer winsdk chunkThreeV3) 8 startWorld).2.1
      (by decide),
    (formatRecord_dispatch sampleEnv 100 (leBytes 4 60 ++ leBytes 2 2) 0 startWorld).1
      (Or.inl (by decide)),
    (formatRecord_dispatch sampleEnv 100 (leBytes 4 60 ++ leBytes 2 7) 0 startWorld).2.2.1
      ⟨by decide, by decide, by decide⟩⟩

/-! ## The version-3 decoder -/

theorem isEqualFileReference_world (env : Env) (a b : List Nat) (w : World) :
    (_UsnpIsEqualFileReference env (some a) (some b) w).2 = w := by
  simp only [_UsnpIsEqualFileReference]
  split <;> rfl

theorem formatTimestamp_stdout (env : Env) (ts : Option Nat) (buffer : Option String)
    (cch : Nat) (w : World) :
    (_UsnpFormatTimestamp env ts buffer cch w).2.2.stdout = w.stdout := by
  unfold _UsnpFormatTimestamp
  split
  · split
    · rfl
    · simp only
      split <;> rfl
  · rfl

theorem getFilenameFromFileId_stdout (env : Env) (osh : Nat) (fid : Option (List Nat))
    (buffer : Option String) (cch : Nat) (w : World) :
    (_UsnpGetFilenameFromFileId env osh fid buffer cch w).2.2.stdout = w.stdout := by
  unfold _UsnpGetFilenameFromFileId
  split
  · simp only
    split
    · split <;> rfl
    · split <;> (split <;> rfl)
  · rfl

/-- What `_UsnpFormatRecordV3` does on a record that is not null, in terms of
the results of its two helper calls: it returns `TRUE` and its first output is
the record text, in which a helper that failed leaves `[error(<code>)]`. -/
theorem formatRecordV3_prints (env : Env) (osh : Nat) (buffer : List Nat) (p : Nat) (w : World)
    (okT : Bool) (textT : String) (w1 : World) (okP : Bool) (textP : String) (w2 : World)
    (hT : _UsnpFormatTimestamp env (some (rd64 buffer (p + env.sdk.ofsTimeStamp))) (some "")
      MAX_PATH w = (okT, textT, w1))
    (hP : _UsnpGetFilenameFromFileId env osh
      (some (readBytes buffer (p + env.sdk.ofsParentFileReferenceNumber) sizeofFileId128))
      (some "") MAX_PATH w1 = (okP, textP, w2)) :
    (_UsnpFormatRecordV3 env osh buffer (some p) w).1 = true ∧
      ∃ rest, (_UsnpFormatRecordV3 env osh buffer (some p) w).2.stdout
        = w.stdout ++ OutItem.record (recordText env buffer p
            (if okP = false then errorText (GetLastError w2) else textP)
            (if okT = false then errorText (GetLastError w1) else textT)) :: rest := by
  have h1 : w1.stdout = w.stdout := by
    have := formatTimestamp_stdout env (some (rd64 buffer (p + env.sdk.ofsTimeStamp))) (some "")
      MAX_PATH w
    rw [hT] at this; exact this
  have h2 : w2.stdout = w.stdout := by
    have := getFilenameFromFileId_stdout env osh
      (some (readBytes buffer (p + env.sdk.ofsParentFileReferenceNumber) sizeofFileId128))
      (some "") MAX_PATH w1
    rw [hP] at this; rw [← h1]; exact this
  simp only [_UsnpFormatRecordV3, isEqualFileReference_world, hT, hP]
  by_cases hd : env.g_dump = 0
  · simp [hd, h2]
  · simp [hd, h2, _UsnpDump]

theorem decoded_at_of_offsets (log before : List (Nat × Bool)) (offsets : List Nat)
    (h : log.map Prod.fst = before.map Prod.fst ++ offsets) (i : Nat) (off : Nat)
    (hi : offsets[i]? = some off) :
    ∃ ok, log[before.length + i]? = some (off, ok) := by
  have h1 : (log.map Prod.fst)[before.length + i]? = some off := by
    rw [h, List.getElem?_append_right (by simp)]
    simpa using hi
  rw [List.getElem?_map] at h1
  cases hlog : log[before.length + i]? with
  | none => rw [hlog] at h1; simp at h1
  | some entry =>
    rw [hlog] at h1
    simp only [Option.map_some', Option.some.injEq] at h1
    exact ⟨entry.2, by rw [← h1]⟩

/-! ## C6 -/

/-- C6: a decode failure never stops the walk. On a chunk of well-formed
records walked within the record limit every record `i` is handed to
`_UsnpFormatRecord` whatever the results `ok` of the calls before it, so also
after a call that returned `FALSE`. And on a record that is not null
`_UsnpFormatRecordV3` returns `TRUE` and prints the record, with
`[error(<code>)]`, `<code>` the last error in hexadecimal, as the time text
when `_UsnpFormatTimestamp` failed and as the parent path when
`_UsnpGetFilenameFromFileId` failed. -/
theorem decode_failure_does_not_stop_walk (env : Env) (osh : Nat) (data lens : List Nat)
    (count : Int) (decoded : List (Nat × Bool)) (w : World)
    (hfit : data.length ≤ _USN_BUFFER_SIZE env.sdk) (hdword : data.length < 2 ^ 32)
    (hpacked : Packed env (chunkBuffer env.sdk data) sizeofUSN lens)
    (hsum : sizeofUSN + lens.sum = data.length)
    (hbudget : count + lens.length ≤ env.g_count + 1) :
    (∃ s', walkRecords env osh (chunkBuffer env.sdk data)
          { bytes := dwordSub (min data.length (_USN_BUFFER_SIZE env.sdk)) sizeofUSN,
            pRecord := sizeofUSN, count := count, decoded := decoded, world := w }
          = some (WalkEnd.chunkDone, s') ∧
        s'.decoded.length = decoded.length + lens.length ∧
        ∀ i, i < lens.length →
          ∃ ok, s'.decoded[decoded.length + i]? = some (8 + (lens.take i).sum, ok)) ∧
      (∀ (buffer : List Nat) (p : Nat) (w0 : World) (okT : Bool) (textT : String) (w1 : World)
          (okP : Bool) (textP : String) (w2 : World),
        _UsnpFormatTimestamp env (some (rd64 buffer (p + env.sdk.ofsTimeStamp))) (some "")
          MAX_PATH w0 = (okT, textT, w1) →
        _UsnpGetFilenameFromFileId env osh
          (some (readBytes buffer (p + env.sdk.ofsParentFileReferenceNumber) sizeofFileId128))
          (some "") MAX_PATH w1 = (okP, textP, w2) →
        (_UsnpFormatRecordV3 env osh buffer (some p) w0).1 = true ∧
        ∃ text rest, (_UsnpFormatRecordV3 env osh buffer (some p) w0).2.stdout
            = w0.stdout ++ OutItem.record text :: rest ∧
          (okT = false → text.timeText = errorText (GetLastError w1)) ∧
          (okP = false → text.parentPath = errorText (GetLastError w2)) ∧
          (okT = true → text.timeText = textT) ∧ (okP = true → text.parentPath = textP)) := by
  constructor
  · have hbytes : dwordSub (min data.length (_USN_BUFFER_SIZE env.sdk)) sizeofUSN = lens.sum := by
      rw [Nat.min_eq_left hfit, dwordSub_of_le hdword (by omega)]; omega
    obtain ⟨s', h1, _, _, _, h5⟩ := walkChunk_packed env osh (chunkBuffer env.sdk data) lens
      (walkFuel env count)
      { bytes := dwordSub (min data.length (_USN_BUFFER_SIZE env.sdk)) sizeofUSN,
        pRecord := sizeofUSN, count := count, decoded := decoded, world := w }
      hpacked hbytes (by simp only; omega) hbudget (walkFuel_ge env count lens.length hbudget)
    refine ⟨s', h1, ?_, ?_⟩
    · have h := congrArg List.length h5
      simpa [recordOffsets_eq] using h
    · intro i hi
      refine decoded_at_of_offsets s'.decoded decoded _ h5 i _ ?_
      rw [recordOffsets_eq]
      simp [hi, sizeofUSN]
  · intro buffer p w0 okT textT w1 okP textP w2 hT hP
    obtain ⟨hret, rest, hout⟩ := formatRecordV3_prints env osh buffer p w0 okT textT w1 okP textP
      w2 hT hP
    refine ⟨hret, _, rest, hout, ?_, ?_, ?_, ?_⟩
    · intro h; simp [recordText, h]
    · intro h; simp [recordText, h]
    · intro h; simp [recordText, h]
    · intro h; simp [recordText, h]

/-- C6 on a chunk of three version-3 records in which the parent of the second
cannot be resolved: the walk hands all three to the decoder, all three are
printed, the first and the third with the resolved path and the second with
the text `[error(7A)]`. And on a chunk whose records have versions 2, 7 and 3:
the decoder fails on the first two, with a message on `stderr` for each, and
the third is still decoded. -/
theorem decode_failure_does_not_stop_walk_witness :
    (∃ s', walkRecords sampleEnv 100 (chunkBuffer winsdk chunkThreeV3)
          { bytes := 248, pRecord := 8, count := 0, decoded := [], world := startWorld }
          = some (WalkEnd.chunkDone, s') ∧
        s'.decoded.length = 3 ∧
        ∀ i, i < 3 → ∃ ok, s'.decoded[0 + i]? = some (8 + (List.take i [80, 80, 88]).sum, ok)) ∧
      (_UsnpFormatRecordV3 sampleEnv 100 (chunkBuffer winsdk chunkThreeV3) (some 88)
          startWorld).1 = true ∧
      (∃ s', walkRecords sampleEnv 100 (chunkBuffer winsdk chunkThreeV3)
          { bytes := 248, pRecord := 8, count := 0, decoded := [], world := startWorld }
          = some (WalkEnd.chunkDone, s') ∧
        s'.decoded = [(8, true), (88, true), (168, true)] ∧
        (printedRecords s'.world.stdout).map RecordText.parentPath
          = ["C:/Temp", "[error(7A)]", "C:/Temp"]) ∧
      (∃ s', walkRecords sampleEnv 100 (chunkBuffer winsdk chunkMixedVersions)
          { bytes := 248, pRecord := 8, count := 0, decoded := [], world := startWorld }
          = some (WalkEnd.chunkDone, s') ∧
        s'.decoded = [(8, false), (88, false), (168, true)] ∧
        s'.world.stderr
          = [ErrItem.formatUsnRecordFailed 120, ErrItem.formatUsnRecordFailed 13] ∧
        (printedRecords s'.world.stdout).length = 1) :=
  ⟨(decode_failure_does_not_stop_walk sampleEnv 100 chunkThreeV3 [80, 80, 88] 0 [] startWorld
      (by decide) (by decide)
      ⟨by decide, by decide, by decide, by decide, by decide, by decide, trivial⟩
      (by decide) (by decide)).1,
    ((decode_failure_does_not_stop_walk sampleEnv 100 chunkThreeV3 [80, 80, 88] 0 [] startWorld
      (by decide) (by decide)
      ⟨by decide, by decide, by decide, by decide, by decide, by decide, trivial⟩
      (by decide) (by decide)).2 (chunkBuffer winsdk chunkThreeV3) 88 startWorld
        true "2020-06-06 23:50:43.744" startWorld
        false "" ⟨122, [], [], [2 ^ 64 - 1]⟩ (by decide) (by decide)).1,
    ⟨_, rfl, by decide, by decide⟩,
    ⟨_, rfl, by decide, by decide, by decide⟩⟩

/-! ## C9 -/

/-- C9, as the code has it: the code-unit count that `_UsnpFormatRecordV3`
passes to `wprintf` is the declared `FileNameLength` divided by 2 with the
remainder dropped; twice the count is `FileNameLength` when that is even and
`FileNameLength - 1` when it is odd. -/
theorem cchfilename_times_two (env : Env) (osh : Nat) (buffer : List Nat) (p : Nat) (w : World) :
    ∃ text rest, (_UsnpFormatRecordV3 env osh buffer (some p) w).2.stdout
        = w.stdout ++ OutItem.record text :: rest ∧
      text.cchfilename * 2 + rd16 buffer (p + env.sdk.ofsFileNameLength) % 2
        = rd16 buffer (p + env.sdk.ofsFileNameLength) ∧
      (rd16 buffer (p + env.sdk.ofsFileNameLength) % 2 = 0 →
        text.cchfilename * 2 = rd16 buffer (p + env.sdk.ofsFileNameLength)) := by
  rcases hT : _UsnpFormatTimestamp env (some (rd64 buffer (p + env.sdk.ofsTimeStamp))) (some "")
    MAX_PATH w with ⟨okT, textT, w1⟩
  rcases hP : _UsnpGetFilenameFromFileId env osh
    (some (readBytes buffer (p + env.sdk.ofsParentFileReferenceNumber) sizeofFileId128))
    (some "") MAX_PATH w1 with ⟨okP, textP, w2⟩
  obtain ⟨_, rest, hout⟩ := formatRecordV3_prints env osh buffer p w okT textT w1 okP textP
    w2 hT hP
  have hlt := rd16_lt buffer (p + env.sdk.ofsFileNameLength)
  have hcch : cchFileName (rd16 buffer (p + env.sdk.ofsFileNameLength))
      = rd16 buffer (p + env.sdk.ofsFileNameLength) / 2 := by
    unfold cchFileName sizeofWchar
    exact Nat.mod_eq_of_lt (by omega)
  refine ⟨_, rest, hout, ?_, ?_⟩
  · simp only [recordText, hcch]; omega
  · intro heven; simp only [recordText, hcch]; omega

/-- C9 fails on a version-3 record that declares a `FileNameLength` of 5: the
count extracted is 2, and twice that is 4. -/
theorem cchfilename_times_two_counterexample :
    rd16 recordOddName (0 + winsdk.ofsFileNameLength) = 5 ∧
      (printedRecords (_UsnpFormatRecordV3 sampleEnv 100 recordOddName (some 0)
          startWorld).2.stdout).map (fun text => text.cchfilename * 2) = [4] := by
  decide

/-- The amended C9 on the sample chunk: the second record declares a
`FileNameLength` of 2 and one code unit is extracted. -/
theorem cchfilename_times_two_witness :
    ∃ text rest, (_UsnpFormatRecordV3 sampleEnv 100 (chunkBuffer winsdk chunkThreeV3) (some 88)
          startWorld).2.stdout = startWorld.stdout ++ OutItem.record text :: rest ∧
      text.cchfilename * 2 = 2 := by
  obtain ⟨text, rest, hout, _, heven⟩ :=
    cchfilename_times_two sampleEnv 100 (chunkBuffer winsdk chunkThreeV3) 88 startWorld
  exact ⟨text, rest, hout, heven (by decide)⟩

/-! ## The fetch loop -/

theorem getElem?_lt_length {α : Type} (l : List α) (n : Nat) (a : α) (h : l[n]? = some a) :
    n < l.length := by
  by_contra hge
  rw [List.getElem?_eq_none (by omega)] at h
  exact Option.noConfusion h

theorem chained_left (env : Env) (osh : Nat) (l l' : List READ_USN_JOURNAL_DATA)
    (h : ∀ N a b, (l ++ l')[N]? = some a → (l ++ l')[N + 1]? = some b → CursorLink env osh N a b) :
    ∀ N a b, l[N]? = some a → l[N + 1]? = some b → CursorLink env osh N a b := by
  intro N a b ha hb
  have h1 := getElem?_lt_length l (N + 1) b hb
  refine h N a b ?_ ?_
  · rw [List.getElem?_append_left (by omega)]; exact ha
  · rw [List.getElem?_append_left h1]; exact hb

theorem chained_snoc (env : Env) (osh : Nat) (l : List READ_USN_JOURNAL_DATA)
    (x y : READ_USN_JOURNAL_DATA)
    (h : ∀ N a b, (l ++ [x])[N]? = some a → (l ++ [x])[N + 1]? = some b → CursorLink env osh N a b)
    (hlink : CursorLink env osh l.length x y) :
    ∀ N a b, (l ++ [x] ++ [y])[N]? = some a → (l ++ [x] ++ [y])[N + 1]? = some b →
      CursorLink env osh N a b := by
  intro N a b ha hb
  have hlen := getElem?_lt_length _ _ _ hb
  simp only [List.length_append, List.length_singleton] at hlen
  by_cases hN : N + 1 < l.length + 1
  · refine h N a b ?_ ?_
    · rw [← ha]
      exact (List.getElem?_append_left (by simp; omega)).symm
    · rw [← hb]
      exact (List.getElem?_append_left (by simp; omega)).symm
  · have hNeq : N = l.length := by omega
    subst hNeq
    have hax : a = x := by
      rw [List.getElem?_append_left (by simp), List.getElem?_append_right (by simp)] at ha
      simpa using ha.symm
    have hby : b = y := by
      rw [List.getElem?_append_right (by simp)] at hb
      simpa using hb.symm
    rw [hax, hby]; exact hlink

/-- The requests logged by the fetch loop extend those logged before it, the
first request added is the pending one, and along the log every request follows
from the one before it by `CursorLink`. -/
theorem readLoop_requests (env : Env) (osh : Nat) :
    ∀ (fuel : Nat) (r : Reader),
      (∀ N a b, (r.requests ++ [r.ReadData])[N]? = some a →
        (r.requests ++ [r.ReadData])[N + 1]? = some b → CursorLink env osh N a b) →
      (∀ N a b, (readLoop env osh fuel r).2.requests[N]? = some a →
        (readLoop env osh fuel r).2.requests[N + 1]? = some b → CursorLink env osh N a b) ∧
      ∃ tail, (readLoop env osh fuel r).2.requests = r.requests ++ tail ∧
        ∀ req, tail[0]? = some req → req = r.ReadData := by
  intro fuel
  induction fuel with
  | zero =>
    intro r h
    exact ⟨chained_left env osh r.requests [r.ReadData] h, [], by simp [readLoop], by simp⟩
  | succ fuel ih =>
    intro r h
    cases hfetch : env.ReadUsnJournal osh r.requests.length r.ReadData with
    | failure e =>
      simp only [readLoop, hfetch]
      exact ⟨h, [r.ReadData], rfl, by simp⟩
    | success data =>
      simp only [readLoop, hfetch]
      rcases hwalk : walkChunk env osh (chunkBuffer env.sdk data) (walkFuel env r.count + fuel)
          { bytes := dwordSub (min data.length (_USN_BUFFER_SIZE env.sdk)) sizeofUSN,
            pRecord := sizeofUSN, count := r.count, decoded := r.decoded, world := r.world }
        with _ | ⟨e, s⟩
      · exact ⟨h, [r.ReadData], rfl, by simp⟩
      · cases e with
        | limit => exact ⟨h, [r.ReadData], rfl, by simp⟩
        | chunkDone =>
          simp only
          obtain ⟨hchain, tail, htail, _⟩ := ih
            { ReadData := { r.ReadData with
                StartUsn := toInt64 (rd64 (chunkBuffer env.sdk data) 0) },
              count := s.count, requests := r.requests ++ [r.ReadData],
              decoded := s.decoded, world := s.world }
            (chained_snoc env osh r.requests r.ReadData _ h ⟨data, hfetch, rfl⟩)
          refine ⟨hchain, [r.ReadData] ++ tail, ?_, by simp⟩
          rw [htail]; simp

/-- The three properties of the request log of a fetch loop that starts with
an empty log. -/
theorem readLoop_chain_from_start (env : Env) (osh fuel : Nat) (r0 : Reader)
    (hreq : r0.requests = []) :
    (∀ req : READ_USN_JOURNAL_DATA, (readLoop env osh fuel r0).2.requests[0]? = some req →
        req = r0.ReadData) ∧
      (∀ (N : Nat) (req next : READ_USN_JOURNAL_DATA),
        (readLoop env osh fuel r0).2.requests[N]? = some req →
        (readLoop env osh fuel r0).2.requests[N + 1]? = some next →
        CursorLink env osh N req next) ∧
      (∀ (N : Nat) (req : READ_USN_JOURNAL_DATA),
        (readLoop env osh fuel r0).2.requests[N]? = some req →
        { req with StartUsn := 0 } = { r0.ReadData with StartUsn := 0 }) := by
  obtain ⟨hchain, tail, htail, hhead⟩ := readLoop_requests env osh fuel r0 (by
    intro N a b _ hb
    have := getElem?_lt_length _ _ _ hb
    rw [hreq] at this
    simp at this)
  rw [hreq, List.nil_append] at htail
  have hfirst : ∀ req : READ_USN_JOURNAL_DATA,
      (readLoop env osh fuel r0).2.requests[0]? = some req → req = r0.ReadData := by
    intro req h0
    rw [htail] at h0
    exact hhead req h0
  refine ⟨hfirst, hchain, ?_⟩
  intro N
  induction N with
  | zero =>
    intro req h0
    rw [hfirst req h0]
  | succ N ih =>
    intro req hN1
    have hlen := getElem?_lt_length _ _ _ hN1
    have hprev : (readLoop env osh fuel r0).2.requests[N]?
        = some ((readLoop env osh fuel r0).2.requests[N]) :=
      List.getElem?_eq_getElem (by omega)
    obtain ⟨data, _, hnext⟩ := hchain N _ req hprev hN1
    rw [← ih _ hprev, hnext]

/-! ## C2 -/

/-- C2: in every run of `_UsnpReadJournalRecords`, whatever the number of
fetches made, the request of the first fetch carries the caller's `StartUsn`;
the request of fetch `N + 1` carries the 64-bit value held in the first 8
bytes of the buffer that fetch `N` (which succeeded) returned; and every
request carries the same journal id, reason mask and version range, and zero in
the fields the code does not set. -/
theorem fetch_cursor_chain (env : Env) (fuel osh : Nat) (JournalData : USN_JOURNAL_DATA)
    (StartUsn : Int) (Reason : Nat) (w : World) :
    (∀ req : READ_USN_JOURNAL_DATA,
        (_UsnpReadJournalRecords env fuel osh (some JournalData) StartUsn Reason w).2.requests[0]?
          = some req → req.StartUsn = StartUsn) ∧
      (∀ (N : Nat) (req next : READ_USN_JOURNAL_DATA),
        (_UsnpReadJournalRecords env fuel osh (some JournalData) StartUsn Reason w).2.requests[N]?
          = some req →
        (_UsnpReadJournalRecords env fuel osh (some JournalData) StartUsn Reason w).2.requests[N + 1]?
          = some next →
        ∃ data, env.ReadUsnJournal osh N req = FetchResult.success data ∧
          next.StartUsn = toInt64 (rd64 (chunkBuffer env.sdk data) 0)) ∧
      (∀ (N : Nat) (req : READ_USN_JOURNAL_DATA),
        (_UsnpReadJournalRecords env fuel osh (some JournalData) StartUsn Reason w).2.requests[N]?
          = some req →
        req.UsnJournalID = JournalData.UsnJournalID ∧ req.ReasonMask = Reason ∧
          req.MinMajorVersion = JournalData.MinSupportedMajorVersion ∧
          req.MaxMajorVersion = JournalData.MaxSupportedMajorVersion ∧
          req.ReturnOnlyOnClose = 0 ∧ req.Timeout = 0 ∧ req.BytesToWaitFor = 0) := by
  simp only [_UsnpReadJournalRecords]
  obtain ⟨hfirst, hchain, hsame⟩ := readLoop_chain_from_start env osh fuel
    { ReadData :=
        { StartUsn := StartUsn, ReasonMask := Reason, ReturnOnlyOnClose := 0, Timeout := 0,
          BytesToWaitFor := 0, UsnJournalID := JournalData.UsnJournalID,
          MinMajorVersion := JournalData.MinSupportedMajorVersion,
          MaxMajorVersion := JournalData.MaxSupportedMajorVersion },
      count := 0, requests := [], decoded := [], world := w } rfl
  refine ⟨?_, ?_, ?_⟩
  · intro req h0
    rw [hfirst req h0]
  · intro N req next hN hN1
    obtain ⟨data, hfetch, hnext⟩ := hchain N req next hN hN1
    exact ⟨data, hfetch, by rw [hnext]⟩
  · intro N req hN
    have h := hsame N req hN
    simp only [READ_USN_JOURNAL_DATA.mk.injEq] at h
    obtain ⟨_, h2, h3, h4, h5, h6, h7, h8⟩ := h
    exact ⟨h6, h2, h7, h8, h3, h4, h5⟩

/-- C2 on the sample system: the first chunk holds the cursor `0x498242000`, so
the two requests made carry `StartUsn` 0 and `0x498242000`. -/
theorem fetch_cursor_chain_witness :
    ((_UsnpReadJournalRecords sampleEnv 5 100 (some sampleJournal) 0 0xFFFFFFFF
        startWorld).2.requests.map READ_USN_JOURNAL_DATA.StartUsn = [0, 0x498242000]) ∧
      ∀ (N : Nat) (req next : READ_USN_JOURNAL_DATA),
        (_UsnpReadJournalRecords sampleEnv 5 100 (some sampleJournal) 0 0xFFFFFFFF
          startWorld).2.requests[N]? = some req →
        (_UsnpReadJournalRecords sampleEnv 5 100 (some sampleJournal) 0 0xFFFFFFFF
          startWorld).2.requests[N + 1]? = some next →
        ∃ data, sampleEnv.ReadUsnJournal 100 N req = FetchResult.success data ∧
          next.StartUsn = toInt64 (rd64 (chunkBuffer sampleEnv.sdk data) 0) :=
  ⟨by decide,
    (fetch_cursor_chain sampleEnv 5 100 sampleJournal 0 0xFFFFFFFF startWorld).2.1⟩

/-! ## The walk ends -/

theorem walkFuel_pos (env : Env) (count : Int) : 0 < walkFuel env count := by
  unfold walkFuel; omega

theorem walkFuel_incr (env : Env) (count : Int) (h : count ≤ env.g_count)
    (hg : env.g_count < 2147483647) :
    walkFuel env (intIncr count) + 1 = walkFuel env count := by
  rw [intIncr_of_lt (by omega)]
  unfold walkFuel; omega

/-- With `g_count` below `2^31 - 1` the loop `while(bytes > 0)` ends within
`walkFuel` passes, and it only adds to the log of decoded records. -/
theorem walkChunk_total (env : Env) (osh : Nat) (buffer : List Nat)
    (hg : env.g_count < 2147483647) :
    ∀ (fuel : Nat) (s : Walk), walkFuel env s.count ≤ fuel →
      ∃ e s' rest, walkChunk env osh buffer fuel s = some (e, s') ∧
        s'.decoded = s.decoded ++ rest := by
  intro fuel
  induction fuel with
  | zero =>
    intro s h
    have := walkFuel_pos env s.count
    omega
  | succ fuel ih =>
    intro s h
    by_cases hb : s.bytes = 0
    · exact ⟨_, s, [], walkChunk_done env osh buffer _ s hb, by simp⟩
    · by_cases hc : env.g_count < s.count
      · exact ⟨_, _, _, walkChunk_limit env osh buffer fuel s (by omega) hc, rfl⟩
      · rw [walkChunk_pass env osh buffer fuel s (by omega) (by omega)]
        obtain ⟨e, s', rest, h1, h2⟩ := ih
          { bytes := dwordSub s.bytes (rd32 buffer (s.pRecord + env.sdk.ofsRecordLength)),
            pRecord := s.pRecord + rd32 buffer (s.pRecord + env.sdk.ofsRecordLength),
            count := intIncr s.count,
            decoded := s.decoded ++
              [(s.pRecord, (decodeRecord env osh buffer s.pRecord s.world).1)],
            world := (decodeRecord env osh buffer s.pRecord s.world).2 }
          (by have := walkFuel_incr env s.count (by omega) hg; simp only; omega)
        exact ⟨e, s', (s.pRecord, (decodeRecord env osh buffer s.pRecord s.world).1) :: rest, h1,
          by rw [h2]; simp⟩

/-! ## What the walk writes to `stderr` -/

theorem formatTimestamp_stderr (env : Env) (ts : Option Nat) (buffer : Option String)
    (cch : Nat) (w : World) :
    (_UsnpFormatTimestamp env ts buffer cch w).2.2.stderr = w.stderr := by
  unfold _UsnpFormatTimestamp
  split
  · split
    · rfl
    · simp only
      split <;> rfl
  · rfl

theorem getFilenameFromFileId_stderr (env : Env) (osh : Nat) (fid : Option (List Nat))
    (buffer : Option String) (cch : Nat) (w : World) :
    (_UsnpGetFilenameFromFileId env osh fid buffer cch w).2.2.stderr = w.stderr := by
  unfold _UsnpGetFilenameFromFileId
  split
  · simp only
    split
    · split <;> rfl
    · split <;> (split <;> rfl)
  · rfl

theorem formatRecordV3_stderr (env : Env) (osh : Nat) (buffer : List Nat) (p : Nat) (w : World) :
    (_UsnpFormatRecordV3 env osh buffer (some p) w).2.stderr = w.stderr := by
  rcases hT : _UsnpFormatTimestamp env (some (rd64 buffer (p + env.sdk.ofsTimeStamp))) (some "")
    MAX_PATH w with ⟨okT, textT, w1⟩
  rcases hP : _UsnpGetFilenameFromFileId env osh
    (some (readBytes buffer (p + env.sdk.ofsParentFileReferenceNumber) sizeofFileId128))
    (some "") MAX_PATH w1 with ⟨okP, textP, w2⟩
  have h1 : w1.stderr = w.stderr := by
    have := formatTimestamp_stderr env (some (rd64 buffer (p + env.sdk.ofsTimeStamp))) (some "")
      MAX_PATH w
    rw [hT] at this; exact this
  have h2 : w2.stderr = w.stderr := by
    have := getFilenameFromFileId_stderr env osh
      (some (readBytes buffer (p + env.sdk.ofsParentFileReferenceNumber) sizeofFileId128))
      (some "") MAX_PATH w1
    rw [hP] at this; rw [← h1]; exact this
  simp only [_UsnpFormatRecordV3, isEqualFileReference_world, hT, hP]
  by_cases hd : env.g_dump = 0
  · simp [hd, h2]
  · simp [hd, h2, _UsnpDump]

theorem formatRecord_stderr (env : Env) (osh : Nat) (buffer : List Nat) (p : Nat) (w : World) :
    (_UsnpFormatRecord env osh buffer (some p) w).2.stderr = w.stderr := by
  simp only [_UsnpFormatRecord]
  split
  · rfl
  · split
    · exact formatRecordV3_stderr env osh buffer p w
    · split <;> rfl

/-- One pass writes to `stderr` the message of a failed decoder call, with the
last error of the call, and nothing else. -/
theorem decodeRecord_stderr (env : Env) (osh : Nat) (buffer : List Nat) (p : Nat) (w : World) :
    (decodeRecord env osh buffer p w).2.stderr
      = w.stderr ++ (if (decodeRecord env osh buffer p w).1 = false then
          [GetLastError (_UsnpFormatRecord env osh buffer (some p) w).2] else []).map
            ErrItem.formatUsnRecordFailed := by
  have hframe := formatRecord_stderr env osh buffer p w
  unfold decodeRecord
  rcases h : _UsnpFormatRecord env osh buffer (some p) w with ⟨ok, w1⟩
  rw [h] at hframe
  simp only at hframe
  cases ok
  · simp [hframe, GetLastError]
  · simp [hframe]

theorem failedCodes_length (p : Nat) (ok : Bool) (c : Nat) :
    (if ok = false then [c] else []).length
      = List.countP (fun d : Nat × Bool => !d.2) [(p, ok)] := by
  cases ok <;> simp

/-- How a walk can end: by the loop condition with the counter at 0, or by the
record limit with last error `ERROR_IMPLEMENTATION_LIMIT`; and what it writes
to `stderr` is one message for every decoder call that returned `FALSE`. -/
theorem walkChunk_exit (env : Env) (osh : Nat) (buffer : List Nat) :
    ∀ (fuel : Nat) (s : Walk) (e : WalkEnd) (s' : Walk),
      walkChunk env osh buffer fuel s = some (e, s') →
      ((e = WalkEnd.chunkDone ∧ s'.bytes = 0) ∨
        (e = WalkEnd.limit ∧ s'.world.lastError = env.sdk.ERROR_IMPLEMENTATION_LIMIT ∧
          ∃ c, env.g_count < c ∧ s'.count = intIncr c)) ∧
      ∃ (rest : List (Nat × Bool)) (codes : List Nat),
        s'.decoded = s.decoded ++ rest ∧
        s'.world.stderr = s.world.stderr ++ codes.map ErrItem.formatUsnRecordFailed ∧
        codes.length = rest.countP (fun d => !d.2) := by
  intro fuel
  induction fuel with
  | zero =>
    intro s e s' h
    by_cases hb : s.bytes = 0
    · rw [walkChunk_done env osh buffer 0 s hb] at h
      simp only [Option.some.injEq, Prod.mk.injEq] at h
      obtain ⟨he, hs⟩ := h
      subst he; subst hs
      exact ⟨Or.inl ⟨rfl, hb⟩, [], [], by simp, by simp, by simp⟩
    · have hpos : 0 < s.bytes := Nat.pos_of_ne_zero hb
      simp [walkChunk, hpos] at h
  | succ fuel ih =>
    intro s e s' h
    by_cases hb : s.bytes = 0
    · rw [walkChunk_done env osh buffer _ s hb] at h
      simp only [Option.some.injEq, Prod.mk.injEq] at h
      obtain ⟨he, hs⟩ := h
      subst he; subst hs
      exact ⟨Or.inl ⟨rfl, hb⟩, [], [], by simp, by simp, by simp⟩
    · have hpos : 0 < s.bytes := Nat.pos_of_ne_zero hb
      have hstderr := decodeRecord_stderr env osh buffer s.pRecord s.world
      by_cases hc : env.g_count < s.count
      · rw [walkChunk_limit env osh buffer fuel s hpos hc] at h
        simp only [Option.some.injEq, Prod.mk.injEq] at h
        obtain ⟨he, hs⟩ := h
        subst he; subst hs
        exact ⟨Or.inr ⟨rfl, rfl, s.count, hc, rfl⟩, _, _, rfl, hstderr,
          failedCodes_length _ _ _⟩
      · rw [walkChunk_pass env osh buffer fuel s hpos (by omega)] at h
        obtain ⟨hend, rest, codes, hrest, hcodes, hlen⟩ := ih _ e s' h
        refine ⟨hend, (s.pRecord, (decodeRecord env osh buffer s.pRecord s.world).1) :: rest,
          (if (decodeRecord env osh buffer s.pRecord s.world).1 = false then
            [GetLastError (_UsnpFormatRecord env osh buffer (some s.pRecord) s.world).2]
            else []) ++ codes, ?_, ?_, ?_⟩
        · rw [hrest]; simp
        · rw [hcodes]
          simp only
          rw [hstderr, List.map_append, List.append_assoc]
        · rw [List.length_append, hlen, failedCodes_length s.pRecord]
          rw [show (s.pRecord, (decodeRecord env osh buffer s.pRecord s.world).1) :: rest
            = [(s.pRecord, (decodeRecord env osh buffer s.pRecord s.world).1)] ++ rest from rfl,
            List.countP_append]

/-- A record that declares length 0 is decoded on every pass until the record
limit ends the loop. -/
theorem walkChunk_zero_length (env : Env) (osh : Nat) (buffer : List Nat)
    (hg : env.g_count < 2147483647) :
    ∀ (n fuel : Nat) (s : Walk), 0 < s.bytes → s.bytes < 2 ^ 32 →
      rd32 buffer (s.pRecord + env.sdk.ofsRecordLength) = 0 →
      (env.g_count + 1 - s.count).toNat = n → n + 1 ≤ fuel →
      ∃ s', walkChunk env osh buffer fuel s = some (WalkEnd.limit, s') ∧
        s'.bytes = s.bytes ∧ s'.pRecord = s.pRecord ∧
        s'.decoded.map Prod.fst = s.decoded.map Prod.fst ++ List.replicate (n + 1) s.pRecord ∧
        s'.world.lastError = env.sdk.ERROR_IMPLEMENTATION_LIMIT := by
  intro n
  induction n with
  | zero =>
    intro fuel s hb _ _ hn hfuel
    cases fuel with
    | zero => omega
    | succ fuel =>
      exact ⟨_, walkChunk_limit env osh buffer fuel s hb (by omega), rfl, rfl,
        by simp, rfl⟩
  | succ n ih =>
    intro fuel s hb hlt hlen hn hfuel
    cases fuel with
    | zero => omega
    | succ fuel =>
      rw [walkChunk_pass env osh buffer fuel s hb (by omega), hlen]
      have hsub : dwordSub s.bytes 0 = s.bytes := by
        rw [dwordSub_of_le hlt (Nat.zero_le _)]; rfl
      have hincr : intIncr s.count = s.count + 1 := intIncr_of_lt (by omega)
      obtain ⟨s', h1, h2, h3, h4, h5⟩ := ih fuel
        { bytes := dwordSub s.bytes 0, pRecord := s.pRecord + 0, count := intIncr s.count,
          decoded := s.decoded ++
            [(s.pRecord, (decodeRecord env osh buffer s.pRecord s.world).1)],
          world := (decodeRecord env osh buffer s.pRecord s.world).2 }
        (by simp only; omega) (by simp only; omega) (by simpa using hlen)
        (by simp only; omega) (by omega)
      refine ⟨s', h1, by rw [h2, hsub], by rw [h3]; rfl, ?_, h5⟩
      rw [h4]
      simp [List.replicate_succ]

/-! ## C4: the walk does not test `RecordLength` -/

theorem chunkBuffer_length (sdk : Platform) (data : List Nat) :
    (chunkBuffer sdk data).length = _USN_BUFFER_SIZE sdk := by
  unfold chunkBuffer
  simp only [List.length_append, List.length_take, List.length_replicate]
  omega

/-- C4, amended. The walk of a chunk does not test `RecordLength`. From a pass
that starts with bytes left, the counter not above `g_count`, `g_count` below
`2^31 - 1` and the `RecordLength` field of the record inside the buffer:
a walk that returns ends with the remaining-bytes counter at exactly 0 or by
the record limit with last error `ERROR_IMPLEMENTATION_LIMIT`, and what it
wrote to `stderr` is one decoder-failure message for every decoder call that
returned `FALSE`; a record that declares length 0 is handed to the decoder on
every pass, counter and pointer unchanged, until the record limit ends the
loop, `g_count - count + 2` calls in all; and after a record that declares
more than the bytes that remain the counter wraps to
`bytes + 2^32 - RecordLength`, which is not 0, and the next pass hands the
pointer at the declared end of the record to the decoder. -/
theorem walk_trusts_record_length (env : Env) (osh : Nat) (buffer : List Nat) (s : Walk)
    (hbytes : 0 < s.bytes) (hlt : s.bytes < 2 ^ 32)
    (_hmin : -2147483648 ≤ s.count) (hcount : s.count ≤ env.g_count)
    (hg : env.g_count < 2147483647)
    (_hhdr : s.pRecord + env.sdk.ofsRecordLength + 4 ≤ buffer.length) :
    (∀ (fuel : Nat) (e : WalkEnd) (s' : Walk),
        walkChunk env osh buffer fuel s = some (e, s') →
        ((e = WalkEnd.chunkDone ∧ s'.bytes = 0) ∨
          (e = WalkEnd.limit ∧ s'.world.lastError = env.sdk.ERROR_IMPLEMENTATION_LIMIT)) ∧
        ∃ (rest : List (Nat × Bool)) (codes : List Nat),
          s'.decoded = s.decoded ++ rest ∧
          s'.world.stderr = s.world.stderr ++ codes.map ErrItem.formatUsnRecordFailed ∧
          codes.length = rest.countP (fun d => !d.2)) ∧
      (rd32 buffer (s.pRecord + env.sdk.ofsRecordLength) = 0 →
        ∃ s', walkRecords env osh buffer s = some (WalkEnd.limit, s') ∧
          s'.bytes = s.bytes ∧ s'.pRecord = s.pRecord ∧
          s'.decoded.map Prod.fst = s.decoded.map Prod.fst ++
            List.replicate ((env.g_count - s.count).toNat + 2) s.pRecord ∧
          s'.world.lastError = env.sdk.ERROR_IMPLEMENTATION_LIMIT) ∧
      (s.bytes < rd32 buffer (s.pRecord + env.sdk.ofsRecordLength) →
        dwordSub s.bytes (rd32 buffer (s.pRecord + env.sdk.ofsRecordLength))
          = s.bytes + 2 ^ 32 - rd32 buffer (s.pRecord + env.sdk.ofsRecordLength) ∧
        0 < dwordSub s.bytes (rd32 buffer (s.pRecord + env.sdk.ofsRecordLength)) ∧
        ∀ fuel : Nat, ∃ (s2 : Walk) (ok0 ok1 : Bool),
          (walkChunk env osh buffer (fuel + 2) s = some (WalkEnd.limit, s2) ∨
            walkChunk env osh buffer (fuel + 2) s = walkChunk env osh buffer fuel s2) ∧
          s2.decoded = s.decoded ++
            [(s.pRecord, ok0),
             (s.pRecord + rd32 buffer (s.pRecord + env.sdk.ofsRecordLength), ok1)]) := by
  refine ⟨?_, ?_, ?_⟩
  · intro fuel e s' h
    obtain ⟨hend, hlog⟩ := walkChunk_exit env osh buffer fuel s e s' h
    refine ⟨?_, hlog⟩
    rcases hend with h1 | ⟨h1, h2, _⟩
    · exact Or.inl h1
    · exact Or.inr ⟨h1, h2⟩
  · intro hzero
    obtain ⟨s', h1, h2, h3, h4, h5⟩ := walkChunk_zero_length env osh buffer hg
      ((env.g_count + 1 - s.count).toNat) (walkFuel env s.count) s hbytes hlt hzero rfl
      (by unfold walkFuel; omega)
    refine ⟨s', h1, h2, h3, ?_, h5⟩
    rw [h4]
    have : (env.g_count + 1 - s.count).toNat + 1 = (env.g_count - s.count).toNat + 2 := by omega
    rw [this]
  · intro hover
    have hlen := rd32_lt buffer (s.pRecord + env.sdk.ofsRecordLength)
    have hwrap := dwordSub_of_lt hlen hover
    refine ⟨hwrap, by rw [hwrap]; omega, ?_⟩
    intro fuel
    rw [walkChunk_pass env osh buffer (fuel + 1) s hbytes hcount]
    by_cases hc : env.g_count < intIncr s.count
    · exact ⟨_, (decodeRecord env osh buffer s.pRecord s.world).1,
        (decodeRecord env osh buffer
          (s.pRecord + rd32 buffer (s.pRecord + env.sdk.ofsRecordLength))
          (decodeRecord env osh buffer s.pRecord s.world).2).1,
        Or.inl (walkChunk_limit env osh buffer fuel _ (by simp only; rw [hwrap]; omega) hc),
        by simp⟩
    · exact ⟨_, (decodeRecord env osh buffer s.pRecord s.world).1,
        (decodeRecord env osh buffer
          (s.pRecord + rd32 buffer (s.pRecord + env.sdk.ofsRecordLength))
          (decodeRecord env osh buffer s.pRecord s.world).2).1,
        Or.inr (walkChunk_pass env osh buffer fuel _ (by simp only; rw [hwrap]; omega)
          (by simp only; omega)),
        by simp⟩

/-- The amended C4 with the record limit at 2: on a chunk whose record
declares length 0 the record at offset 8 is handed to the decoder four times;
on a chunk whose record declares 80 bytes when 60 remain the counter wraps to
`2^32 - 20` and the second pass hands the pointer 88 to the decoder. -/
theorem walk_trusts_record_length_witness :
    (∃ s', walkRecords budgetTwoEnv 100 (chunkBuffer winsdk chunkZeroLength)
        { bytes := 80, pRecord := 8, count := 0, decoded := [], world := startWorld }
        = some (WalkEnd.limit, s') ∧
      s'.bytes = 80 ∧ s'.pRecord = 8 ∧ s'.decoded.map Prod.fst = [8, 8, 8, 8] ∧
      s'.world.lastError = 1292) ∧
    (dwordSub 60 80 = 60 + 2 ^ 32 - 80 ∧ 0 < dwordSub 60 80 ∧
      ∀ fuel : Nat, ∃ (s2 : Walk) (ok0 ok1 : Bool),
        (walkChunk budgetTwoEnv 100 (chunkBuffer winsdk chunkOversized) (fuel + 2)
            { bytes := 60, pRecord := 8, count := 0, decoded := [], world := startWorld }
            = some (WalkEnd.limit, s2) ∨
          walkChunk budgetTwoEnv 100 (chunkBuffer winsdk chunkOversized) (fuel + 2)
            { bytes := 60, pRecord := 8, count := 0, decoded := [], world := startWorld }
            = walkChunk budgetTwoEnv 100 (chunkBuffer winsdk chunkOversized) fuel s2) ∧
        s2.decoded = [(8, ok0), (8 + 80, ok1)]) :=
  ⟨(walk_trusts_record_length budgetTwoEnv 100 (chunkBuffer winsdk chunkZeroLength)
      { bytes := 80, pRecord := 8, count := 0, decoded := [], world := startWorld }
      (by decide) (by decide) (by decide) (by decide) (by decide)
      (by rw [chunkBuffer_length]; decide)).2.1 (by decide),
    (walk_trusts_record_length budgetTwoEnv 100 (chunkBuffer winsdk chunkOversized)
      { bytes := 60, pRecord := 8, count := 0, decoded := [], world := startWorld }
      (by decide) (by decide) (by decide) (by decide) (by decide)
      (by rw [chunkBuffer_length]; decide)).2.2 (by decide)⟩

/-- C4 fails on a record that declares length 0 (the walk does not stop at it:
the same record is decoded four times, the walk ends by the record limit and
nothing is written to `stderr`) and on a record that declares 80 bytes when 60
remain (the counter wraps to `2^32 - 20`, the bytes at offset 88 are decoded
three times and the messages on `stderr` are those of the three failed decoder
calls, with the decoder's error 13). -/
theorem walk_trusts_record_length_counterexample :
    (walkRecords budgetTwoEnv 100 (chunkBuffer winsdk chunkZeroLength)
        { bytes := 80, pRecord := 8, count := 0, decoded := [], world := startWorld }).map
        (fun r => (r.1, r.2.bytes, r.2.decoded.map Prod.fst, r.2.world.lastError,
          r.2.world.stderr))
      = some (WalkEnd.limit, 80, [8, 8, 8, 8], 1292, []) ∧
    (walkRecords budgetTwoEnv 100 (chunkBuffer winsdk chunkOversized)
        { bytes := 60, pRecord := 8, count := 0, decoded := [], world := startWorld }).map
        (fun r => (r.1, r.2.bytes, r.2.decoded.map Prod.fst, r.2.world.lastError,
          r.2.world.stderr))
      = some (WalkEnd.limit, 4294967276, [8, 88, 88, 88], 1292,
          [ErrItem.formatUsnRecordFailed 13, ErrItem.formatUsnRecordFailed 13,
            ErrItem.formatUsnRecordFailed 13]) := by
  exact ⟨by decide, by decide⟩

/-! ## One fetch -/

theorem readLoop_failure (env : Env) (osh fuel : Nat) (r : Reader) (e : Nat)
    (hfetch : env.ReadUsnJournal osh r.requests.length r.ReadData = FetchResult.failure e) :
    readLoop env osh (fuel + 1) r
      = (some false,
          { r with requests := r.requests ++ [r.ReadData], world := SetLastError e r.world }) := by
  rw [readLoop, hfetch]

theorem readLoop_limit (env : Env) (osh fuel : Nat) (r : Reader) (data : List Nat) (s : Walk)
    (hfetch : env.ReadUsnJournal osh r.requests.length r.ReadData = FetchResult.success data)
    (hwalk : walkRecords env osh (chunkBuffer env.sdk data)
      { bytes := dwordSub (min data.length (_USN_BUFFER_SIZE env.sdk)) sizeofUSN,
        pRecord := sizeofUSN, count := r.count, decoded := r.decoded, world := r.world }
      = some (WalkEnd.limit, s)) :
    readLoop env osh (fuel + 1) r
      = (some true,
          { r with count := s.count, requests := r.requests ++ [r.ReadData],
                   decoded := s.decoded, world := s.world }) := by
  have h := walkChunk_mono env osh _ _ _ _ hwalk fuel
  rw [readLoop, hfetch]
  simp only [h]

theorem readLoop_chunkDone (env : Env) (osh fuel : Nat) (r : Reader) (data : List Nat) (s : Walk)
    (hfetch : env.ReadUsnJournal osh r.requests.length r.ReadData = FetchResult.success data)
    (hwalk : walkRecords env osh (chunkBuffer env.sdk data)
      { bytes := dwordSub (min data.length (_USN_BUFFER_SIZE env.sdk)) sizeofUSN,
        pRecord := sizeofUSN, count := r.count, decoded := r.decoded, world := r.world }
      = some (WalkEnd.chunkDone, s)) :
    readLoop env osh (fuel + 1) r
      = readLoop env osh fuel
          { ReadData := { r.ReadData with StartUsn := toInt64 (rd64 (chunkBuffer env.sdk data) 0) },
            count := s.count, requests := r.requests ++ [r.ReadData],
            decoded := s.decoded, world := s.world } := by
  have h := walkChunk_mono env osh _ _ _ _ hwalk fuel
  rw [readLoop, hfetch]
  simp only [h]

/-- A fetch that returns the 8-byte cursor and nothing else: no record is
decoded, the cursor is stored and the loop goes on to the next fetch. -/
theorem readLoop_empty_chunk (env : Env) (osh fuel : Nat) (r : Reader) (data : List Nat)
    (hsize : sizeofUSN ≤ _USN_BUFFER_SIZE env.sdk)
    (hfetch : env.ReadUsnJournal osh r.requests.length r.ReadData = FetchResult.success data)
    (hlen : data.length = sizeofUSN) :
    readLoop env osh (fuel + 1) r
      = readLoop env osh fuel
          { ReadData := { r.ReadData with StartUsn := toInt64 (rd64 (chunkBuffer env.sdk data) 0) },
            count := r.count, requests := r.requests ++ [r.ReadData],
            decoded := r.decoded, world := r.world } := by
  have hbytes : dwordSub (min data.length (_USN_BUFFER_SIZE env.sdk)) sizeofUSN = 0 := by
    rw [hlen, Nat.min_eq_left hsize, dwordSub_of_le (by decide) (le_refl _)]
    exact Nat.sub_self _
  rw [readLoop_chunkDone env osh fuel r data
    { bytes := dwordSub (min data.length (_USN_BUFFER_SIZE env.sdk)) sizeofUSN,
      pRecord := sizeofUSN, count := r.count, decoded := r.decoded, world := r.world } hfetch
    (walkChunk_done env osh _ _ _ hbytes)]

/-- The fetch loop on a provider whose next `k` fetches return an empty chunk. -/
theorem readLoop_empty_chunks (env : Env) (osh : Nat)
    (hsize : sizeofUSN ≤ _USN_BUFFER_SIZE env.sdk) :
    ∀ (fuel k : Nat) (r : Reader),
      (∀ n, r.requests.length ≤ n → n < r.requests.length + k → ∀ req,
        ∃ data, env.ReadUsnJournal osh n req = FetchResult.success data ∧
          data.length = sizeofUSN) →
      (fuel ≤ k →
        (readLoop env osh fuel r).1 = none ∧
        (readLoop env osh fuel r).2.requests.length = r.requests.length + fuel ∧
        (readLoop env osh fuel r).2.decoded = r.decoded) ∧
      (k < fuel → ∀ e, (∀ req, env.ReadUsnJournal osh (r.requests.length + k) req
          = FetchResult.failure e) →
        (readLoop env osh fuel r).1 = some false ∧
        (readLoop env osh fuel r).2.requests.length = r.requests.length + k + 1 ∧
        (readLoop env osh fuel r).2.decoded = r.decoded ∧
        (readLoop env osh fuel r).2.world = SetLastError e r.world) := by
  intro fuel
  induction fuel with
  | zero =>
    intro k r _
    exact ⟨fun _ => ⟨rfl, rfl, rfl⟩, fun h => absurd h (Nat.not_lt_zero _)⟩
  | succ fuel ih =>
    intro k r hempty
    cases k with
    | zero =>
      refine ⟨fun h => absurd h (by omega), fun _ e hfail => ?_⟩
      rw [readLoop_failure env osh fuel r e (hfail r.ReadData)]
      exact ⟨rfl, by simp, rfl, rfl⟩
    | succ k =>
      obtain ⟨data, hfetch, hlen⟩ := hempty r.requests.length (le_refl _) (by omega) r.ReadData
      rw [readLoop_empty_chunk env osh fuel r data hsize hfetch hlen]
      obtain ⟨hrun, hstop⟩ := ih k
        { ReadData := { r.ReadData with StartUsn := toInt64 (rd64 (chunkBuffer env.sdk data) 0) },
          count := r.count, requests := r.requests ++ [r.ReadData],
          decoded := r.decoded, world := r.world }
        (by
          intro n h1 h2 req
          simp only [List.length_append, List.length_singleton] at h1 h2
          exact hempty n (by omega) (by omega) req)
      constructor
      · intro hle
        obtain ⟨h1, h2, h3⟩ := hrun (by omega)
        refine ⟨h1, ?_, h3⟩
        rw [h2]; simp only [List.length_append, List.length_singleton]; omega
      · intro hlt e hfail
        obtain ⟨h1, h2, h3, h4⟩ := hstop (by omega) e (by
          intro req
          simp only [List.length_append, List.length_singleton]
          rw [show r.requests.length + 1 + k = r.requests.length + (k + 1) by omega]
          exact hfail req)
        refine ⟨h1, ?_, h3, h4⟩
        rw [h2]; simp only [List.length_append, List.length_singleton]; omega

/-- How the fetch loop can return: `FALSE` after a fetch that failed, with the
error of that fetch, or `TRUE` after the test `count++ > g_count` succeeded,
with last error `ERROR_IMPLEMENTATION_LIMIT`. -/
theorem readLoop_exit (env : Env) (osh : Nat) :
    ∀ (fuel : Nat) (r : Reader),
      ((readLoop env osh fuel r).1 = some false →
        ∃ (pre : List READ_USN_JOURNAL_DATA) (req : READ_USN_JOURNAL_DATA) (e : Nat),
          (readLoop env osh fuel r).2.requests = pre ++ [req] ∧
          env.ReadUsnJournal osh pre.length req = FetchResult.failure e ∧
          (readLoop env osh fuel r).2.world.lastError = e) ∧
      ((readLoop env osh fuel r).1 = some true →
        (readLoop env osh fuel r).2.world.lastError = env.sdk.ERROR_IMPLEMENTATION_LIMIT ∧
        ∃ c, env.g_count < c ∧ (readLoop env osh fuel r).2.count = intIncr c) := by
  intro fuel
  induction fuel with
  | zero =>
    intro r
    exact ⟨fun h => by simp [readLoop] at h, fun h => by simp [readLoop] at h⟩
  | succ fuel ih =>
    intro r
    rcases hfetch : env.ReadUsnJournal osh r.requests.length r.ReadData with e | data
    · rw [readLoop_failure env osh fuel r e hfetch]
      exact ⟨fun _ => ⟨r.requests, r.ReadData, e, rfl, hfetch, rfl⟩, fun h => by simp at h⟩
    · rcases hwalk : walkChunk env osh (chunkBuffer env.sdk data) (walkFuel env r.count + fuel)
          { bytes := dwordSub (min data.length (_USN_BUFFER_SIZE env.sdk)) sizeofUSN,
            pRecord := sizeofUSN, count := r.count, decoded := r.decoded, world := r.world }
        with _ | ⟨e, s⟩
      · rw [readLoop, hfetch]
        simp only [hwalk]
        exact ⟨fun h => by simp at h, fun h => by simp at h⟩
      · obtain ⟨hend, _⟩ := walkChunk_exit env osh _ _ _ e s hwalk
        cases e with
        | limit =>
          rw [readLoop, hfetch]
          simp only [hwalk]
          rcases hend with ⟨h, _⟩ | ⟨_, h2, h3⟩
          · cases h
          · exact ⟨fun h => by simp at h, fun _ => ⟨h2, h3⟩⟩
        | chunkDone =>
          rw [readLoop, hfetch]
          simp only [hwalk]
          exact ih _

/-! ## C7 -/

/-- C7, amended: an empty chunk does not stop the reader. With a chunk buffer
that holds the 8-byte cursor and called with a journal data block,
`_UsnpReadJournalRecords` returns `FALSE` only after a
fetch that failed, with the error of that fetch as last error, and `TRUE` only
after the test `count++ > g_count` succeeded, with last error
`ERROR_IMPLEMENTATION_LIMIT`. So with a provider whose first `k` fetches
succeed with a chunk that holds only the 8-byte cursor and whose next fetch
fails with `e`, it is still in its loop after each of the first `k` fetches,
makes `k + 1` fetches in all, hands no record to the decoder and returns
`FALSE` with last error `e`. -/
theorem empty_chunk_fetches_again (env : Env) (osh : Nat) (JournalData : USN_JOURNAL_DATA)
    (StartUsn : Int) (Reason : Nat) (w : World)
    (hsize : sizeofUSN ≤ _USN_BUFFER_SIZE env.sdk) :
    (∀ fuel,
      ((_UsnpReadJournalRecords env fuel osh (some JournalData) StartUsn Reason w).1 = some false →
        ∃ (pre : List READ_USN_JOURNAL_DATA) (req : READ_USN_JOURNAL_DATA) (e : Nat),
          (_UsnpReadJournalRecords env fuel osh (some JournalData) StartUsn Reason w).2.requests
            = pre ++ [req] ∧
          env.ReadUsnJournal osh pre.length req = FetchResult.failure e ∧
          (_UsnpReadJournalRecords env fuel osh (some JournalData) StartUsn Reason
            w).2.world.lastError = e) ∧
      ((_UsnpReadJournalRecords env fuel osh (some JournalData) StartUsn Reason w).1 = some true →
        (_UsnpReadJournalRecords env fuel osh (some JournalData) StartUsn Reason
          w).2.world.lastError = env.sdk.ERROR_IMPLEMENTATION_LIMIT ∧
        ∃ c, env.g_count < c ∧
          (_UsnpReadJournalRecords env fuel osh (some JournalData) StartUsn Reason w).2.count
            = intIncr c)) ∧
    (∀ k e : Nat,
      (∀ n, n < k → ∀ req, ∃ data,
        env.ReadUsnJournal osh n req = FetchResult.success data ∧ data.length = sizeofUSN) →
      (∀ req, env.ReadUsnJournal osh k req = FetchResult.failure e) →
      (∀ fuel, fuel ≤ k →
        (_UsnpReadJournalRecords env fuel osh (some JournalData) StartUsn Reason w).1 = none ∧
        (_UsnpReadJournalRecords env fuel osh (some JournalData) StartUsn Reason w).2.requests.length
          = fuel) ∧
      (∀ fuel, k < fuel →
        (_UsnpReadJournalRecords env fuel osh (some JournalData) StartUsn Reason w).1 = some false ∧
        (_UsnpReadJournalRecords env fuel osh (some JournalData) StartUsn Reason w).2.requests.length
          = k + 1 ∧
        (_UsnpReadJournalRecords env fuel osh (some JournalData) StartUsn Reason w).2.decoded = [] ∧
        (_UsnpReadJournalRecords env fuel osh (some JournalData) StartUsn Reason w).2.world
          = SetLastError e w)) := by
  simp only [_UsnpReadJournalRecords]
  refine ⟨fun fuel => readLoop_exit env osh fuel _, ?_⟩
  intro k e hempty hfail
  have key := fun fuel => readLoop_empty_chunks env osh hsize fuel k
      { ReadData :=
          { StartUsn := StartUsn, ReasonMask := Reason, ReturnOnlyOnClose := 0, Timeout := 0,
            BytesToWaitFor := 0, UsnJournalID := JournalData.UsnJournalID,
            MinMajorVersion := JournalData.MinSupportedMajorVersion,
            MaxMajorVersion := JournalData.MaxSupportedMajorVersion },
        count := 0, requests := [], decoded := [], world := w }
      (by
        intro n _ h2 req
        simp only [List.length_nil, Nat.zero_add] at h2
        exact hempty n h2 req)
  constructor
  · intro fuel hle
    obtain ⟨h1, h2, _⟩ := (key fuel).1 hle
    exact ⟨h1, by simpa using h2⟩
  · intro fuel hlt
    obtain ⟨h1, h2, h3, h4⟩ := (key fuel).2 hlt e (by
      intro req
      simp only [List.length_nil, Nat.zero_add]
      exact hfail req)
    exact ⟨h1, by simpa using h2, h3, h4⟩

/-- The amended C7 on a provider that returns two empty chunks and then fails:
after two fetches the reader is still in its loop, and it returns `FALSE` at the
third. -/
theorem empty_chunk_fetches_again_witness :
    sizeofUSN ≤ _USN_BUFFER_SIZE idleThenFailEnv.sdk ∧
      ((_UsnpReadJournalRecords idleThenFailEnv 2 100 (some sampleJournal) 0 0xFFFFFFFF
          startWorld).1 = none ∧
        (_UsnpReadJournalRecords idleThenFailEnv 2 100 (some sampleJournal) 0 0xFFFFFFFF
          startWorld).2.requests.length = 2) ∧
      ((_UsnpReadJournalRecords idleThenFailEnv 7 100 (some sampleJournal) 0 0xFFFFFFFF
          startWorld).1 = some false ∧
        (_UsnpReadJournalRecords idleThenFailEnv 7 100 (some sampleJournal) 0 0xFFFFFFFF
          startWorld).2.requests.length = 2 + 1 ∧
        (_UsnpReadJournalRecords idleThenFailEnv 7 100 (some sampleJournal) 0 0xFFFFFFFF
          startWorld).2.decoded = [] ∧
        (_UsnpReadJournalRecords idleThenFailEnv 7 100 (some sampleJournal) 0 0xFFFFFFFF
          startWorld).2.world = SetLastError 38 startWorld) :=
  ⟨by decide,
    ((empty_chunk_fetches_again idleThenFailEnv 100 sampleJournal 0 0xFFFFFFFF startWorld
      (by decide)).2 2 38
      (fun n hn _ => ⟨chunkEmpty, by simp [idleThenFailEnv, hn], by decide⟩)
      (fun _ => rfl)).1 2 (le_refl _),
    ((empty_chunk_fetches_again idleThenFailEnv 100 sampleJournal 0 0xFFFFFFFF startWorld
      (by decide)).2 2 38
      (fun n hn _ => ⟨chunkEmpty, by simp [idleThenFailEnv, hn], by decide⟩)
      (fun _ => rfl)).2 7 (by decide)⟩

/-- C7 fails: after an empty chunk the reader fetches again (with a provider
that returns two empty chunks and then fails it makes three fetches), and with
a provider that returns an empty chunk at every fetch, where no fetch fails and
the record limit is not reached, it does not return whatever the number of
fetches allowed. -/
theorem empty_chunk_fetches_again_counterexample :
    (_UsnpReadJournalRecords idleThenFailEnv 7 100 (some sampleJournal) 0 0xFFFFFFFF
        startWorld).2.requests.length = 3 ∧
      ¬ ∃ fuel, (_UsnpReadJournalRecords idleEnv fuel 100 (some sampleJournal) 0 0xFFFFFFFF
        startWorld).1 ≠ none := by
  refine ⟨by decide, ?_⟩
  rintro ⟨fuel, hfuel⟩
  apply hfuel
  simp only [_UsnpReadJournalRecords]
  exact ((readLoop_empty_chunks idleEnv 100 (by decide) fuel fuel _
    (fun _ _ _ _ => ⟨chunkEmpty, rfl, by decide⟩)).1 (le_refl _)).1

/-! ## C3 -/

/-- C3, as the code has it: with `g_count` at 0 and a first chunk of at least
two well-formed records, `_UsnpReadJournalRecords` returns `TRUE` with last
error `ERROR_IMPLEMENTATION_LIMIT` after one fetch, having handed two records
to `_UsnpFormatRecord`, the first and the second of the chunk: the limit is
tested after the decoder call, with `count++ > g_count`. -/
theorem budget_zero_hands_two_records (env : Env) (fuel osh : Nat)
    (JournalData : USN_JOURNAL_DATA) (StartUsn : Int) (Reason : Nat) (w : World)
    (data : List Nat) (len1 len2 : Nat) (lens : List Nat)
    (hzero : env.g_count = 0)
    (hfetch : ∀ req, env.ReadUsnJournal osh 0 req = FetchResult.success data)
    (hfit : data.length ≤ _USN_BUFFER_SIZE env.sdk) (hdword : data.length < 2 ^ 32)
    (hpacked : Packed env (chunkBuffer env.sdk data) sizeofUSN (len1 :: len2 :: lens))
    (hsum : sizeofUSN + (len1 :: len2 :: lens).sum = data.length) :
    (_UsnpReadJournalRecords env (fuel + 1) osh (some JournalData) StartUsn Reason w).1
        = some true ∧
      (_UsnpReadJournalRecords env (fuel + 1) osh (some JournalData) StartUsn Reason w).2.world.lastError
        = env.sdk.ERROR_IMPLEMENTATION_LIMIT ∧
      (_UsnpReadJournalRecords env (fuel + 1) osh (some JournalData) StartUsn Reason w).2.decoded.map
          Prod.fst = [8, 8 + len1] ∧
      (_UsnpReadJournalRecords env (fuel + 1) osh (some JournalData) StartUsn Reason w).2.requests.length
        = 1 := by
  obtain ⟨hlen1, hpos1, hlen2, hpos2, _⟩ := hpacked
  simp only [List.sum_cons] at hsum
  have hbytes : dwordSub (min data.length (_USN_BUFFER_SIZE env.sdk)) sizeofUSN
      = len1 + (len2 + lens.sum) := by
    rw [Nat.min_eq_left hfit, dwordSub_of_le hdword (by omega)]; omega
  have hsub : dwordSub (len1 + (len2 + lens.sum)) len1 = len2 + lens.sum := by
    rw [dwordSub_of_le (by omega) (by omega)]; omega
  have hfuel : walkFuel env 0 = 1 + 1 := by unfold walkFuel; rw [hzero]; rfl
  have hwalk := walkChunk_limit env osh (chunkBuffer env.sdk data) 0
    { bytes := len2 + lens.sum, pRecord := sizeofUSN + len1, count := intIncr 0,
      decoded := [(sizeofUSN, (decodeRecord env osh (chunkBuffer env.sdk data) sizeofUSN w).1)],
      world := (decodeRecord env osh (chunkBuffer env.sdk data) sizeofUSN w).2 }
    (by simp only; omega) (by simp only; rw [hzero]; decide)
  have hall : ∃ s', walkRecords env osh (chunkBuffer env.sdk data)
      { bytes := dwordSub (min data.length (_USN_BUFFER_SIZE env.sdk)) sizeofUSN,
        pRecord := sizeofUSN, count := 0, decoded := [], world := w }
        = some (WalkEnd.limit, s') ∧
      s'.world.lastError = env.sdk.ERROR_IMPLEMENTATION_LIMIT ∧
      s'.decoded.map Prod.fst = [sizeofUSN, sizeofUSN + len1] := by
    unfold walkRecords
    simp only
    rw [hfuel, walkChunk_pass env osh _ 1 _ (by simp only; rw [hbytes]; omega)
      (by simp only; rw [hzero])]
    simp only [hbytes, hlen1, hsub, List.nil_append]
    exact ⟨_, hwalk, rfl, rfl⟩
  obtain ⟨s', hs', hlast, hdecoded⟩ := hall
  simp only [_UsnpReadJournalRecords]
  rw [readLoop_limit env osh fuel
    { ReadData :=
        { StartUsn := StartUsn, ReasonMask := Reason, ReturnOnlyOnClose := 0, Timeout := 0,
          BytesToWaitFor := 0, UsnJournalID := JournalData.UsnJournalID,
          MinMajorVersion := JournalData.MinSupportedMajorVersion,
          MaxMajorVersion := JournalData.MaxSupportedMajorVersion },
      count := 0, requests := [], decoded := [], world := w } data s' (hfetch _) hs']
  exact ⟨rfl, hlast, hdecoded, rfl⟩

/-- C3 on the sample system with `g_count` at 0: the first chunk holds three
records and two of them, at offsets 8 and 88, are handed to the decoder. -/
theorem budget_zero_hands_two_records_witness :
    (_UsnpReadJournalRecords budgetZeroEnv 1 100 (some sampleJournal) 0 0xFFFFFFFF
        startWorld).1 = some true ∧
      (_UsnpReadJournalRecords budgetZeroEnv 1 100 (some sampleJournal) 0 0xFFFFFFFF
        startWorld).2.world.lastError = 1292 ∧
      (_UsnpReadJournalRecords budgetZeroEnv 1 100 (some sampleJournal) 0 0xFFFFFFFF
        startWorld).2.decoded.map Prod.fst = [8, 8 + 80] ∧
      (_UsnpReadJournalRecords budgetZeroEnv 1 100 (some sampleJournal) 0 0xFFFFFFFF
        startWorld).2.requests.length = 1 :=
  budget_zero_hands_two_records budgetZeroEnv 0 100 sampleJournal 0 0xFFFFFFFF startWorld
    chunkThreeV3 80 80 [88] rfl (fun _ => rfl) (by decide) (by decide)
    ⟨by decide, by decide, by decide, by decide, by decide, by decide, trivial⟩ (by decide)

/-! ## C10 -/

/-- C10, as the code has it on the path where the journal query fails: when
the volume opens (the handle is not `INVALID_HANDLE_VALUE`) and
`DeviceIoControl(FSCTL_QUERY_USN_JOURNAL)` fails with `e`,
`_UsnpReadJournalData` returns `FALSE` with last error `e` and makes no call of
`CloseHandle`: the volume handle is left open. -/
theorem query_failure_leaves_handle_open (env : Env) (fuel : Nat) (pathname : String)
    (Reason : Nat) (w : World) (e : Nat)
    (hopen : (env.CreateFileW (diskname pathname)).handle ≠ env.sdk.INVALID_HANDLE_VALUE)
    (hquery : env.QueryUsnJournal (env.CreateFileW (diskname pathname)).handle = .error e) :
    (_UsnpReadJournalData env fuel (some pathname) Reason w).1 = some false ∧
      (_UsnpReadJournalData env fuel (some pathname) Reason w).2.closed = w.closed ∧
      (_UsnpReadJournalData env fuel (some pathname) Reason w).2.lastError = e := by
  simp only [_UsnpReadJournalData, hopen, if_false, hquery]
  cases (env.CreateFileW (diskname pathname)).error <;> simp [SetLastError]

/-- C10 on a volume whose journal is not active: the volume opens as handle
100, the query fails with `ERROR_JOURNAL_NOT_ACTIVE` and no handle is closed;
on the sample system, where it is a fetch that fails, handle 100 is closed
once. -/
theorem query_failure_leaves_handle_open_witness :
    ((_UsnpReadJournalData notActiveEnv 5 (some "C:") 0xFFFFFFFF startWorld).1 = some false ∧
        (_UsnpReadJournalData notActiveEnv 5 (some "C:") 0xFFFFFFFF startWorld).2.closed
          = startWorld.closed ∧
        (_UsnpReadJournalData notActiveEnv 5 (some "C:") 0xFFFFFFFF startWorld).2.lastError
          = 1179) ∧
      (_UsnpReadJournalData notActiveEnv 5 (some "C:") 0xFFFFFFFF startWorld).2.closed.count 100
        = 0 ∧
      (_UsnpReadJournalData sampleEnv 5 (some "C:") 0xFFFFFFFF startWorld).1 = some false ∧
      (_UsnpReadJournalData sampleEnv 5 (some "C:") 0xFFFFFFFF startWorld).2.closed.count 100
        = 1 :=
  ⟨query_failure_leaves_handle_open notActiveEnv 5 "C:" 0xFFFFFFFF startWorld 1179
      (by decide) rfl,
    by decide, by decide, by decide⟩

/-! ## C11 -/

theorem dumpRowCount_natCast (n : Nat) : dumpRowCount (n : Int) = (n + 15) / 16 := by
  unfold dumpRowCount
  omega

/-- C11, as the code has it: on a buffer that is not null and a size `n`,
`_UsnpDump` returns `TRUE` and writes, after its header, `ceil(n/16)` rows; row
`r` has offset `16 r`, its hex cell `j` holds byte `16 r + j` when that index is
below `n` and is blank otherwise, and its gutter cell `j` holds `.` for a byte
below `0x20` or above `0x7F` and the byte itself otherwise, so the byte `0x7F`
is written as itself. -/
theorem dump_rows (env : Env) (rd : Nat → Nat) (n : Nat) (w : World) :
    (_UsnpDump env (some rd) (n : Int) w).1 = true ∧
      ∃ rows : List DumpRow,
        (_UsnpDump env (some rd) (n : Int) w).2.stdout
          = w.stdout ++ OutItem.dumpHeader (n : Int) :: rows.map OutItem.dumpRow ∧
        rows.length = (n + 15) / 16 ∧
        ∀ r, r < (n + 15) / 16 → ∃ row, rows[r]? = some row ∧ row.index = ((16 * r : Nat) : Int) ∧
          row.hex.length = 16 ∧ row.ascii.length = 16 ∧
          ∀ j, j < 16 →
            row.hex[j]? = some (if 16 * r + j < n then some (rd (16 * r + j)) else none) ∧
            row.ascii[j]? = some (if 16 * r + j < n then
              some (if rd (16 * r + j) < 0x20 ∨ rd (16 * r + j) > 0x7F then 46
                else rd (16 * r + j)) else none) := by
  refine ⟨rfl, (List.range ((n + 15) / 16)).map (fun r => dumpRow rd (n : Int) (16 * r)), ?_,
    by simp, ?_⟩
  · simp [_UsnpDump, dumpRowCount_natCast, List.map_map, Function.comp_def]
  · intro r hr
    refine ⟨dumpRow rd (n : Int) (16 * r), by simp [hr], rfl, by simp [dumpRow],
      by simp [dumpRow], ?_⟩
    intro j hj
    have hc : (16 * (r : Int) + (j : Int) < (n : Int)) ↔ 16 * r + j < n := by omega
    constructor
    · simp [dumpRow, hj, hc]
    · simp [dumpRow, hj, hc]

/-- C11 on a buffer of 17 bytes that ends with `0x7F`: two rows are written,
the second row shows the one byte `7F` and fifteen blank cells, and its gutter
shows the byte `0x7F` itself, not `.` (46). -/
theorem dump_rows_witness :
    (_UsnpDump sampleEnv (some (readByte bytesWithDel)) 17 startWorld).1 = true ∧
      ((_UsnpDump sampleEnv (some (readByte bytesWithDel)) 17 startWorld).2.stdout.length
        = 1 + 2) ∧
      (_UsnpDump sampleEnv (some (readByte bytesWithDel)) 17 startWorld).2.stdout[2]?
        = some (OutItem.dumpRow
            { index := 16,
              hex := some 127 :: List.replicate 15 none,
              ascii := some 127 :: List.replicate 15 none }) ∧
      ∃ rows : List DumpRow,
        (_UsnpDump sampleEnv (some (readByte bytesWithDel)) ((17 : Nat) : Int) startWorld).2.stdout
          = startWorld.stdout ++ OutItem.dumpHeader ((17 : Nat) : Int) :: rows.map OutItem.dumpRow ∧
        rows.length = (17 + 15) / 16 :=
  ⟨by decide, by decide, by decide,
    (dump_rows sampleEnv (readByte bytesWithDel) 17 startWorld).2.imp
      (fun _ h => ⟨h.1, h.2.1⟩)⟩

/-! ## The hex dump with bounded indexing -/

theorem readCells_eq_none_iff {α : Type} (cells : List (Option α)) :
    readCells cells = none ↔ none ∈ cells := by
  induction cells with
  | nil => simp [readCells]
  | cons cell rest ih =>
    cases cell with
    | none => simp [readCells]
    | some a =>
      simp only [readCells, Option.map_eq_none', ih, List.mem_cons]
      constructor
      · intro h; exact Or.inr h
      · rintro (h | h)
        · exact Option.noConfusion h
        · exact h

theorem readCells_map_some {α β : Type} (f : α → β) (l : List α) :
    readCells (l.map (fun x => some (f x))) = some (l.map f) := by
  induction l with
  | nil => rfl
  | cons x rest ih => simp [readCells, ih]

/-- A row is cut short exactly when one of the sixteen bytes of its gutter, or
one of its hex cells below `buffersize`, is out of range. -/
theorem dumpRowBounded_eq_none_iff (rd : Nat → Option Nat) (buffersize : Int) (index : Nat) :
    dumpRowBounded rd buffersize index = none ↔
      (∃ j, j < 16 ∧ ((index + j : Nat) : Int) < buffersize ∧ rd (index + j) = none) ∨
      (∃ k, k < 16 ∧ rd (index + k) = none) := by
  unfold dumpRowBounded
  constructor
  · intro h
    split at h
    · rename_i hhex
      left
      rw [readCells_eq_none_iff, List.mem_map] at hhex
      obtain ⟨j, hj, hcell⟩ := hhex
      rw [List.mem_range] at hj
      by_cases hc : ((index + j : Nat) : Int) < buffersize
      · rw [if_pos hc] at hcell
        exact ⟨j, hj, hc, by simpa using hcell⟩
      · rw [if_neg hc] at hcell
        exact Option.noConfusion hcell
    · split at h
      · rename_i hascii
        right
        rw [readCells_eq_none_iff, List.mem_map] at hascii
        obtain ⟨k, hk, hcell⟩ := hascii
        rw [List.mem_range] at hk
        exact ⟨k, hk, by simpa using hcell⟩
      · exact Option.noConfusion h
  · intro h
    split
    · rfl
    · have hk : ∃ k, k < 16 ∧ rd (index + k) = none := by
        rcases h with ⟨j, hj, _, hnone⟩ | h
        · exact ⟨j, hj, hnone⟩
        · exact h
      obtain ⟨k, hk, hnone⟩ := hk
      have hascii : readCells ((List.range 16).map (fun kndex =>
          (rd (index + kndex)).map (fun ch =>
            if ((index + kndex : Nat) : Int) < buffersize then
              some (if ch < 0x20 ∨ ch > 0x7F then 46 else ch)
            else none))) = none := by
        rw [readCells_eq_none_iff, List.mem_map]
        exact ⟨k, List.mem_range.mpr hk, by rw [hnone]; rfl⟩
      rw [hascii]

theorem dumpBounded_eq_none_iff (env : Env) (rd : Nat → Option Nat) (buffersize : Int)
    (w : World) :
    _UsnpDumpBounded env (some rd) buffersize w = none ↔
      ∃ r, r < dumpRowCount buffersize ∧ dumpRowBounded rd buffersize (16 * r) = none := by
  simp only [_UsnpDumpBounded]
  constructor
  · intro h
    split at h
    · rename_i hrows
      rw [readCells_eq_none_iff, List.mem_map] at hrows
      obtain ⟨r, hr, hrow⟩ := hrows
      exact ⟨r, List.mem_range.mp hr, hrow.symm ▸ rfl⟩
    · exact Option.noConfusion h
  · rintro ⟨r, hr, hrow⟩
    have hrows : readCells ((List.range (dumpRowCount buffersize)).map
        (fun r => dumpRowBounded rd buffersize (16 * r))) = none := by
      rw [readCells_eq_none_iff, List.mem_map]
      exact ⟨r, List.mem_range.mpr hr, hrow⟩
    rw [hrows]

/-- On a memory where every index is readable the bounded model is the model
`_UsnpDump`. -/
theorem dumpBounded_total (env : Env) (rd : Nat → Nat) (buffersize : Int) (w : World) :
    _UsnpDumpBounded env (some (fun i => some (rd i))) buffersize w
      = some (_UsnpDump env (some rd) buffersize w) := by
  have hrow : ∀ index, dumpRowBounded (fun i => some (rd i)) buffersize index
      = some (dumpRow rd buffersize index) := by
    intro index
    have hhex : (fun jndex : Nat =>
        if ((index + jndex : Nat) : Int) < buffersize then some (some (rd (index + jndex)))
        else some none)
        = fun jndex => some (if ((index + jndex : Nat) : Int) < buffersize
            then some (rd (index + jndex)) else none) := by
      funext jndex
      split <;> rfl
    simp only [dumpRowBounded, Option.map_some', hhex, readCells_map_some]
    rfl
  simp only [_UsnpDumpBounded, hrow, readCells_map_some, _UsnpDump, List.map_map]
  rfl

/-! ## C13 -/

/-- C13, as the code has it: with a buffer of `n` bytes whose indexing returns
an `Option`, `_UsnpDump` reaches the out-of-range branch exactly when `n` is
not a multiple of 16. The hex loop tests the index before it reads, but the
gutter loop reads `buffer[index + kndex]` before its test, so the last row reads
the indices from `n` up to the end of the row. -/
theorem dump_reads_past_end (env : Env) (bytes : List Nat) (w : World) :
    _UsnpDumpBounded env (some (fun i => bytes[i]?)) (bytes.length : Int) w = none ↔
      bytes.length % 16 ≠ 0 := by
  rw [dumpBounded_eq_none_iff]
  have hcount : dumpRowCount (bytes.length : Int) = (bytes.length + 15) / 16 := by
    unfold dumpRowCount; omega
  rw [hcount]
  constructor
  · rintro ⟨r, hr, hrow⟩ hmod
    rw [dumpRowBounded_eq_none_iff] at hrow
    rcases hrow with ⟨j, _, hin, hnone⟩ | ⟨k, hk, hnone⟩
    · have hlt : 16 * r + j < bytes.length := by omega
      rw [List.getElem?_eq_getElem hlt] at hnone
      exact Option.noConfusion hnone
    · have hlt : 16 * r + k < bytes.length := by omega
      rw [List.getElem?_eq_getElem hlt] at hnone
      exact Option.noConfusion hnone
  · intro hmod
    refine ⟨bytes.length / 16, by omega, ?_⟩
    rw [dumpRowBounded_eq_none_iff]
    right
    exact ⟨bytes.length % 16, Nat.mod_lt _ (by norm_num),
      List.getElem?_eq_none (by omega)⟩

/-- C13 on a buffer of one byte: the gutter of the only row reads the indices 1
to 15 and the out-of-range branch is reached; on a buffer of sixteen bytes it
is not, and the rows are those of `_UsnpDump`. -/
theorem dump_reads_past_end_witness :
    _UsnpDumpBounded sampleEnv (some (fun i => [65][i]?)) 1 startWorld = none ∧
      (dumpRowBounded (fun i => [65][i]?) 1 0 = none ∧ [65][1]? = none) ∧
      _UsnpDumpBounded sampleEnv (some (fun i => (bytesWithDel.take 16)[i]?)) 16 startWorld
        = some (_UsnpDump sampleEnv (some (readByte (bytesWithDel.take 16))) 16 startWorld) :=
  ⟨(dump_reads_past_end sampleEnv [65] startWorld).mpr (by decide), by decide, by decide⟩

/-! ## The record limit across chunks -/

theorem walkFuel_succ (env : Env) (count : Int) (h : count ≤ env.g_count) :
    walkFuel env (count + 1) + 1 = walkFuel env count := by
  unfold walkFuel; omega

/-- On a chunk of well-formed records that holds at least as many records as
the limit still lets through, with `g_count` below `2^31 - 1`, the walk ends by
the record limit after exactly that many records. The counter has advanced by
as many when no `count++` overflowed. -/
theorem walkChunk_packed_limit (env : Env) (osh : Nat) (buffer : List Nat)
    (hg : env.g_count < 2147483647) :
    ∀ (lens : List Nat) (fuel : Nat) (s : Walk),
      Packed env buffer s.pRecord lens → s.bytes = lens.sum → s.bytes < 2 ^ 32 →
      walkFuel env s.count ≤ lens.length → walkFuel env s.count ≤ fuel →
      ∃ s', walkChunk env osh buffer fuel s = some (WalkEnd.limit, s') ∧
        (s.count + (walkFuel env s.count : Nat) ≤ 2147483647 →
          s'.count = s.count + (walkFuel env s.count : Nat)) ∧
        s'.decoded.length = s.decoded.length + walkFuel env s.count ∧
        s'.world.lastError = env.sdk.ERROR_IMPLEMENTATION_LIMIT := by
  intro lens
  induction lens with
  | nil =>
    intro fuel s _ _ _ hlen _
    have := walkFuel_pos env s.count
    simp at hlen
    omega
  | cons len lens ih =>
    intro fuel s hpacked hsum hlt hlen hfuel
    obtain ⟨hrec, hpos, hrest⟩ := hpacked
    simp only [List.sum_cons] at hsum
    simp only [List.length_cons] at hlen
    have hfpos := walkFuel_pos env s.count
    cases fuel with
    | zero => omega
    | succ fuel =>
      by_cases hc : env.g_count < s.count
      · have hone : walkFuel env s.count = 1 := by unfold walkFuel; omega
        refine ⟨_, walkChunk_limit env osh buffer fuel s (by omega) hc, ?_, ?_, rfl⟩
        · intro hmax
          rw [hone] at hmax ⊢
          simp only
          rw [intIncr_of_lt (by omega)]
          rfl
        · rw [hone]; simp
      · have hsucc := walkFuel_succ env s.count (by omega)
        have hincr : intIncr s.count = s.count + 1 := intIncr_of_lt (by omega)
        rw [walkChunk_pass env osh buffer fuel s (by omega) (by omega), hrec, hincr]
        have hsub : dwordSub s.bytes len = lens.sum := by
          rw [dwordSub_of_le hlt (by omega)]; omega
        obtain ⟨s', h1, h2, h3, h4⟩ := ih fuel
          { bytes := dwordSub s.bytes len, pRecord := s.pRecord + len, count := s.count + 1,
            decoded := s.decoded ++
              [(s.pRecord, (decodeRecord env osh buffer s.pRecord s.world).1)],
            world := (decodeRecord env osh buffer s.pRecord s.world).2 }
          hrest hsub (by simp only; omega) (by simp only; omega) (by simp only; omega)
        simp only at h2 h3
        refine ⟨s', h1, ?_, ?_, h4⟩
        · intro hmax
          rw [h2 (by omega)]; omega
        · rw [h3]; simp only [List.length_append, List.length_singleton]; omega

/-- The fetch loop on a provider that supplies well-formed chunks with at least
as many records as the limit still lets through, with `g_count` below
`2^31 - 1`: the loop returns `TRUE` by the record limit, after exactly that
many records. The counter has advanced by as many when no `count++`
overflowed. -/
theorem readLoop_supplied (env : Env) (osh : Nat) (hg : env.g_count < 2147483647) :
    ∀ (chunks : List (List Nat × List Nat)) (fuel : Nat) (r : Reader),
      Supplies env osh r.requests.length chunks →
      walkFuel env r.count ≤ recordCount chunks → chunks.length ≤ fuel →
      (readLoop env osh fuel r).1 = some true ∧
        (r.count + (walkFuel env r.count : Nat) ≤ 2147483647 →
          (readLoop env osh fuel r).2.count = r.count + (walkFuel env r.count : Nat)) ∧
        (readLoop env osh fuel r).2.decoded.length = r.decoded.length + walkFuel env r.count ∧
        (readLoop env osh fuel r).2.world.lastError = env.sdk.ERROR_IMPLEMENTATION_LIMIT := by
  intro chunks
  induction chunks with
  | nil =>
    intro fuel r _ htotal _
    have := walkFuel_pos env r.count
    simp [recordCount] at htotal
    omega
  | cons chunk rest ih =>
    intro fuel r hsup htotal hfuel
    obtain ⟨data, lens⟩ := chunk
    obtain ⟨hfetch, hfit, hdword, hpacked, hsum, hrest⟩ := hsup
    have htotal' : walkFuel env r.count ≤ lens.length + recordCount rest := by
      simpa [recordCount] using htotal
    simp only [List.length_cons] at hfuel
    have hbytes : dwordSub (min data.length (_USN_BUFFER_SIZE env.sdk)) sizeofUSN = lens.sum := by
      rw [Nat.min_eq_left hfit, dwordSub_of_le hdword (by omega)]; omega
    cases fuel with
    | zero => omega
    | succ fuel =>
      by_cases hlim : walkFuel env r.count ≤ lens.length
      · obtain ⟨s', h1, h2, h3, h4⟩ := walkChunk_packed_limit env osh (chunkBuffer env.sdk data) hg
          lens (walkFuel env r.count)
          { bytes := dwordSub (min data.length (_USN_BUFFER_SIZE env.sdk)) sizeofUSN,
            pRecord := sizeofUSN, count := r.count, decoded := r.decoded, world := r.world }
          hpacked hbytes (by simp only; omega) hlim (le_refl _)
        rw [readLoop_limit env osh fuel r data s' (hfetch _) h1]
        exact ⟨rfl, h2, h3, h4⟩
      · have hdone : ∃ s', walkRecords env osh (chunkBuffer env.sdk data)
            { bytes := dwordSub (min data.length (_USN_BUFFER_SIZE env.sdk)) sizeofUSN,
              pRecord := sizeofUSN, count := r.count, decoded := r.decoded, world := r.world }
              = some (WalkEnd.chunkDone, s') ∧
            s'.count = r.count + (lens.length : Nat) ∧
            s'.decoded.length = r.decoded.length + lens.length ∧
            walkFuel env s'.count + lens.length = walkFuel env r.count := by
          by_cases hnil : lens.length = 0
          · refine ⟨_, walkChunk_done env osh _ _ _ (by
              simp only; rw [hbytes, List.length_eq_zero.mp hnil]; rfl), ?_, ?_, ?_⟩
            · simp [hnil]
            · simp [hnil]
            · simp [hnil]
          · have hbudget : r.count + (lens.length : Nat) ≤ env.g_count + 1 := by
              unfold walkFuel at hlim; omega
            obtain ⟨s', h1, _, _, h4, h5⟩ := walkChunk_packed env osh (chunkBuffer env.sdk data)
              lens (walkFuel env r.count)
              { bytes := dwordSub (min data.length (_USN_BUFFER_SIZE env.sdk)) sizeofUSN,
                pRecord := sizeofUSN, count := r.count, decoded := r.decoded, world := r.world }
              hpacked hbytes (by simp only; omega) hbudget (by omega)
            have h4 := h4 hg
            refine ⟨s', h1, h4, ?_, ?_⟩
            · have h := congrArg List.length h5
              simpa [recordOffsets_eq] using h
            · rw [h4]; unfold walkFuel; simp only; omega
        obtain ⟨s', hs, hcount, hdec, hfuel'⟩ := hdone
        rw [readLoop_chunkDone env osh fuel r data s' (hfetch _) hs]
        obtain ⟨g1, g2, g3, g4⟩ := ih fuel
          { ReadData := { r.ReadData with StartUsn := toInt64 (rd64 (chunkBuffer env.sdk data) 0) },
            count := s'.count, requests := r.requests ++ [r.ReadData],
            decoded := s'.decoded, world := s'.world }
          (by simpa using hrest) (by simp only; omega) (by omega)
        simp only at g2 g3
        refine ⟨g1, ?_, ?_, g4⟩
        · intro hmax
          rw [g2 (by omega)]; omega
        · rw [g3]; omega

/-! ## The record limit at the largest `int` -/

/-- With `g_count` at `2^31 - 1` and the counter an `int`, the test
`count++ > g_count` does not succeed: a walk that ends does so by the loop
condition, the counter is still an `int` and no decoded record is lost. -/
theorem walkChunk_no_limit (env : Env) (osh : Nat) (buffer : List Nat)
    (hg : env.g_count = 2147483647) :
    ∀ (fuel : Nat) (s : Walk) (e : WalkEnd) (s' : Walk), s.count ≤ 2147483647 →
      walkChunk env osh buffer fuel s = some (e, s') →
      e = WalkEnd.chunkDone ∧ s'.count ≤ 2147483647 ∧ s.decoded.length ≤ s'.decoded.length := by
  intro fuel
  induction fuel with
  | zero =>
    intro s e s' hc h
    by_cases hb : s.bytes = 0
    · rw [walkChunk_done env osh buffer 0 s hb] at h
      simp only [Option.some.injEq, Prod.mk.injEq] at h
      obtain ⟨he, hs⟩ := h
      subst he; subst hs
      exact ⟨rfl, hc, le_refl _⟩
    · have hpos : 0 < s.bytes := Nat.pos_of_ne_zero hb
      simp [walkChunk, hpos] at h
  | succ fuel ih =>
    intro s e s' hc h
    by_cases hb : s.bytes = 0
    · rw [walkChunk_done env osh buffer _ s hb] at h
      simp only [Option.some.injEq, Prod.mk.injEq] at h
      obtain ⟨he, hs⟩ := h
      subst he; subst hs
      exact ⟨rfl, hc, le_refl _⟩
    · have hpos : 0 < s.bytes := Nat.pos_of_ne_zero hb
      rw [walkChunk_pass env osh buffer fuel s hpos (by omega)] at h
      obtain ⟨h1, h2, h3⟩ := ih _ e s' (by simp only; exact intIncr_le_max hc) h
      refine ⟨h1, h2, ?_⟩
      simp only [List.length_append, List.length_singleton, List.length_cons,
        List.length_nil] at h3
      omega

/-- With `g_count` at `2^31 - 1`, the walk of a chunk of well-formed records
decodes every record and ends by the loop condition, whatever the counter. -/
theorem walkChunk_packed_max (env : Env) (osh : Nat) (buffer : List Nat)
    (hg : env.g_count = 2147483647) :
    ∀ (lens : List Nat) (fuel : Nat) (s : Walk),
      Packed env buffer s.pRecord lens → s.bytes = lens.sum → s.bytes < 2 ^ 32 →
      s.count ≤ 2147483647 → lens.length ≤ fuel →
      ∃ s', walkChunk env osh buffer fuel s = some (WalkEnd.chunkDone, s') ∧
        s'.count ≤ 2147483647 ∧ s'.decoded.length = s.decoded.length + lens.length := by
  intro lens
  induction lens with
  | nil =>
    intro fuel s _ hsum _ hc _
    have h0 : s.bytes = 0 := by simpa using hsum
    exact ⟨s, walkChunk_done env osh buffer fuel s h0, hc, by simp⟩
  | cons len lens ih =>
    intro fuel s hpacked hsum hlt hc hfuel
    obtain ⟨hlen, hpos, hrest⟩ := hpacked
    simp only [List.sum_cons] at hsum
    simp only [List.length_cons] at hfuel
    cases fuel with
    | zero => omega
    | succ fuel =>
      rw [walkChunk_pass env osh buffer fuel s (by omega) (by omega), hlen]
      have hsub : dwordSub s.bytes len = lens.sum := by
        rw [dwordSub_of_le hlt (by omega)]; omega
      obtain ⟨s', h1, h2, h3⟩ := ih fuel
        { bytes := dwordSub s.bytes len, pRecord := s.pRecord + len, count := intIncr s.count,
          decoded := s.decoded ++
            [(s.pRecord, (decodeRecord env osh buffer s.pRecord s.world).1)],
          world := (decodeRecord env osh buffer s.pRecord s.world).2 }
        hrest hsub (by simp only; omega) (by simp only; exact intIncr_le_max hc) (by omega)
      refine ⟨s', h1, h2, ?_⟩
      simp only [List.length_append, List.length_singleton] at h3
      rw [h3]
      simp only [List.length_cons]
      omega

/-- With `g_count` at `2^31 - 1` and a provider that returns the same chunk of
well-formed records at every fetch, the fetch loop does not return, and it has
handed every record of every chunk but the last to the decoder. -/
theorem readLoop_max (env : Env) (osh : Nat) (data : List Nat) (lens : List Nat)
    (hg : env.g_count = 2147483647)
    (hfetch : ∀ n req, env.ReadUsnJournal osh n req = FetchResult.success data)
    (hfit : data.length ≤ _USN_BUFFER_SIZE env.sdk) (hdword : data.length < 2 ^ 32)
    (hpacked : Packed env (chunkBuffer env.sdk data) sizeofUSN lens)
    (hsum : sizeofUSN + lens.sum = data.length) (hlens : lens.length ≤ 3) :
    ∀ (fuel : Nat) (r : Reader), r.count ≤ 2147483647 →
      (readLoop env osh fuel r).1 = none ∧
        r.decoded.length + lens.length * fuel
          ≤ (readLoop env osh fuel r).2.decoded.length + lens.length := by
  have hbytes : dwordSub (min data.length (_USN_BUFFER_SIZE env.sdk)) sizeofUSN = lens.sum := by
    rw [Nat.min_eq_left hfit, dwordSub_of_le hdword (by omega)]; omega
  intro fuel
  induction fuel with
  | zero =>
    intro r _
    exact ⟨rfl, by simp [readLoop]⟩
  | succ fuel ih =>
    intro r hc
    have hwf : 2 ≤ walkFuel env r.count := by unfold walkFuel; omega
    cases fuel with
    | zero =>
      rcases hwalk : walkChunk env osh (chunkBuffer env.sdk data) (walkFuel env r.count + 0)
          { bytes := dwordSub (min data.length (_USN_BUFFER_SIZE env.sdk)) sizeofUSN,
            pRecord := sizeofUSN, count := r.count, decoded := r.decoded, world := r.world }
        with _ | ⟨e, s⟩
      · rw [readLoop, hfetch]
        simp only [hwalk]
        exact ⟨trivial, by omega⟩
      · obtain ⟨he, _, hlen⟩ := walkChunk_no_limit env osh _ hg _ _ e s (by simp only; exact hc)
          hwalk
        subst he
        rw [readLoop, hfetch]
        simp only [hwalk, readLoop]
        simp only at hlen
        exact ⟨trivial, by omega⟩
    | succ fuel =>
      obtain ⟨s', h1, h2, h3⟩ := walkChunk_packed_max env osh (chunkBuffer env.sdk data) hg
        lens (walkFuel env r.count + (fuel + 1))
        { bytes := dwordSub (min data.length (_USN_BUFFER_SIZE env.sdk)) sizeofUSN,
          pRecord := sizeofUSN, count := r.count, decoded := r.decoded, world := r.world }
        hpacked hbytes (by simp only; omega) hc (by omega)
      obtain ⟨g1, g2⟩ := ih
        { ReadData := { r.ReadData with StartUsn := toInt64 (rd64 (chunkBuffer env.sdk data) 0) },
          count := s'.count, requests := r.requests ++ [r.ReadData],
          decoded := s'.decoded, world := s'.world } h2
      rw [readLoop, hfetch]
      simp only [h1]
      refine ⟨g1, ?_⟩
      simp only at g2 h3
      rw [h3] at g2
      have : lens.length * (fuel + 1 + 1) = lens.length + lens.length * (fuel + 1) := by ring
      omega

theorem supplies_same_chunk (env : Env) (osh : Nat) (data : List Nat) (lens : List Nat)
    (hfetch : ∀ n req, env.ReadUsnJournal osh n req = FetchResult.success data)
    (hfit : data.length ≤ _USN_BUFFER_SIZE env.sdk) (hdword : data.length < 2 ^ 32)
    (hpacked : Packed env (chunkBuffer env.sdk data) sizeofUSN lens)
    (hsum : sizeofUSN + lens.sum = data.length) :
    ∀ (m n : Nat), Supplies env osh n (List.replicate m (data, lens)) := by
  intro m
  induction m with
  | zero => intro n; exact trivial
  | succ m ih =>
    intro n
    exact ⟨fun req => hfetch n req, hfit, hdword, hpacked, hsum, ih (n + 1)⟩

theorem recordCount_replicate (m : Nat) (data lens : List Nat) :
    recordCount (List.replicate m (data, lens)) = m * lens.length := by
  induction m with
  | zero => simp [recordCount]
  | succ m ih =>
    have h : recordCount ((data, lens) :: List.replicate m (data, lens))
        = lens.length + recordCount (List.replicate m (data, lens)) := by
      simp [recordCount]
    rw [List.replicate_succ, h, ih]
    ring

/-! ## C12 -/

/-- C12, amended: the record counter of `_UsnpReadJournalRecords` is kept
across fetches and counts every record handed to `_UsnpFormatRecord`, whatever
the result of the call. With `g_count` an `int` below `2^31 - 1` and a provider
that supplies, in well-formed chunks of records of positive length and with no
failed fetch, at least `g + 2` records when `g_count = g >= 0` and at least one
record when `g_count < 0`, the function returns `TRUE` with last error
`ERROR_IMPLEMENTATION_LIMIT` within as many fetches as there are chunks; the
records handed to the decoder are then exactly `g + 2` when `g >= 0` and
exactly 1 when `g < 0`, and the counter equals their number when `g_count` is
below `2^31 - 2`, where no `count++` overflows. -/
theorem record_counter_spans_fetches (env : Env) (osh : Nat) (JournalData : USN_JOURNAL_DATA)
    (StartUsn : Int) (Reason : Nat) (w : World) (chunks : List (List Nat × List Nat))
    (fuel : Nat)
    (_hmin : -2147483648 ≤ env.g_count) (hg : env.g_count < 2147483647)
    (hsupplies : Supplies env osh 0 chunks)
    (htotal : (env.g_count + 1).toNat + 1 ≤ recordCount chunks)
    (hfuel : chunks.length ≤ fuel) :
    (_UsnpReadJournalRecords env fuel osh (some JournalData) StartUsn Reason w).1 = some true ∧
      (_UsnpReadJournalRecords env fuel osh (some JournalData) StartUsn Reason w).2.world.lastError
        = env.sdk.ERROR_IMPLEMENTATION_LIMIT ∧
      (env.g_count < 2147483646 →
        (_UsnpReadJournalRecords env fuel osh (some JournalData) StartUsn Reason w).2.count
          = ((_UsnpReadJournalRecords env fuel osh (some JournalData) StartUsn Reason
              w).2.decoded.length : Nat)) ∧
      (0 ≤ env.g_count →
        (((_UsnpReadJournalRecords env fuel osh (some JournalData) StartUsn Reason
            w).2.decoded.length : Nat) : Int) = env.g_count + 2) ∧
      (env.g_count < 0 →
        (_UsnpReadJournalRecords env fuel osh (some JournalData) StartUsn Reason
            w).2.decoded.length = 1) := by
  simp only [_UsnpReadJournalRecords]
  have hfuel0 : walkFuel env 0 = (env.g_count + 1).toNat + 1 := by unfold walkFuel; simp
  obtain ⟨h1, h2, h3, h4⟩ := readLoop_supplied env osh hg chunks fuel
    { ReadData :=
        { StartUsn := StartUsn, ReasonMask := Reason, ReturnOnlyOnClose := 0, Timeout := 0,
          BytesToWaitFor := 0, UsnJournalID := JournalData.UsnJournalID,
          MinMajorVersion := JournalData.MinSupportedMajorVersion,
          MaxMajorVersion := JournalData.MaxSupportedMajorVersion },
      count := 0, requests := [], decoded := [], world := w }
    hsupplies (by simp only; rw [hfuel0]; exact htotal) hfuel
  simp only [List.length_nil, Nat.zero_add, Int.zero_add] at h2 h3
  rw [hfuel0] at h2 h3
  refine ⟨h1, h4, ?_, ?_, ?_⟩
  · intro hsmall; rw [h2 (by omega), h3]
  · intro hpos; rw [h3]; omega
  · intro hneg; rw [h3]; omega

/-- The amended C12 on a provider that returns a chunk of three records and
then another chunk of three: with `g_count` at 2 the function makes two fetches
and hands four records to the decoder, three of the first chunk and one of the
second; with `g_count` at -3 it hands one. -/
theorem record_counter_spans_fetches_witness :
    ((_UsnpReadJournalRecords twoChunkEnv 2 100 (some sampleJournal) 0 0xFFFFFFFF
          startWorld).1 = some true ∧
        (_UsnpReadJournalRecords twoChunkEnv 2 100 (some sampleJournal) 0 0xFFFFFFFF
          startWorld).2.world.lastError = 1292 ∧
        (twoChunkEnv.g_count < 2147483646 →
          (_UsnpReadJournalRecords twoChunkEnv 2 100 (some sampleJournal) 0 0xFFFFFFFF
            startWorld).2.count = ((_UsnpReadJournalRecords twoChunkEnv 2 100 (some sampleJournal)
              0 0xFFFFFFFF startWorld).2.decoded.length : Nat)) ∧
        (0 ≤ twoChunkEnv.g_count →
          (((_UsnpReadJournalRecords twoChunkEnv 2 100 (some sampleJournal) 0 0xFFFFFFFF
            startWorld).2.decoded.length : Nat) : Int) = twoChunkEnv.g_count + 2) ∧
        (twoChunkEnv.g_count < 0 →
          (_UsnpReadJournalRecords twoChunkEnv 2 100 (some sampleJournal) 0 0xFFFFFFFF
            startWorld).2.decoded.length = 1)) ∧
      (_UsnpReadJournalRecords twoChunkEnv 2 100 (some sampleJournal) 0 0xFFFFFFFF
          startWorld).2.decoded.map Prod.fst = [8, 88, 168, 8] ∧
      (_UsnpReadJournalRecords twoChunkEnv 2 100 (some sampleJournal) 0 0xFFFFFFFF
          startWorld).2.count = 4 ∧
      (_UsnpReadJournalRecords twoChunkEnv 2 100 (some sampleJournal) 0 0xFFFFFFFF
          startWorld).2.requests.length = 2 ∧
      (_UsnpReadJournalRecords budgetNegativeEnv 1 100 (some sampleJournal) 0 0xFFFFFFFF
          startWorld).2.decoded.map Prod.fst = [8] :=
  ⟨record_counter_spans_fetches twoChunkEnv 100 sampleJournal 0 0xFFFFFFFF startWorld
      [(chunkThreeV3, [80, 80, 88]), (chunk607288, [60, 72, 88])] 2
      (by decide) (by decide)
      ⟨fun _ => rfl, by decide, by decide,
        ⟨by decide, by decide, by decide, by decide, by decide, by decide, trivial⟩, by decide,
        fun _ => rfl, by decide, by decide,
        ⟨by decide, by decide, by decide, by decide, by decide, by decide, trivial⟩, by decide,
        trivial⟩
      (by decide) (by decide),
    by decide, by decide, by decide, by decide⟩

/-- C12 fails at `g_count = 2^31 - 1`: the counter is an `int`, so the test
`count++ > g_count` cannot succeed. With a provider that returns a chunk of
three well-formed records at every fetch, which supplies `g + 2` records in
715827884 chunks and as many more as are asked for, the function does not
return whatever the number of fetches allowed, and within `n` fetches it hands
at least `3 * (n - 1)` records to the decoder: more than `g + 2` from
`n = 715827885` on. -/
theorem record_counter_spans_fetches_counterexample :
    budgetMaxEnv.g_count = 2147483647 ∧
      (∀ m, Supplies budgetMaxEnv 100 0 (List.replicate m (chunkThreeV3, [80, 80, 88]))) ∧
      (budgetMaxEnv.g_count + 1).toNat + 1
        ≤ recordCount (List.replicate 715827884 (chunkThreeV3, [80, 80, 88])) ∧
      (¬ ∃ fuel, (_UsnpReadJournalRecords budgetMaxEnv fuel 100 (some sampleJournal) 0 0xFFFFFFFF
        startWorld).1 ≠ none) ∧
      (∀ fuel, 3 * fuel ≤ (_UsnpReadJournalRecords budgetMaxEnv fuel 100 (some sampleJournal) 0
        0xFFFFFFFF startWorld).2.decoded.length + 3) ∧
      (budgetMaxEnv.g_count + 2 : Int) < 3 * (715827885 - 1 : Nat) := by
  have hpacked : Packed budgetMaxEnv (chunkBuffer budgetMaxEnv.sdk chunkThreeV3) sizeofUSN
      [80, 80, 88] :=
    ⟨by decide, by decide, by decide, by decide, by decide, by decide, trivial⟩
  have key := readLoop_max budgetMaxEnv 100 chunkThreeV3 [80, 80, 88] rfl (fun _ _ => rfl)
    (by decide) (by decide) hpacked (by decide) (by decide)
  refine ⟨rfl, ?_, ?_, ?_, ?_, by decide⟩
  · intro m
    exact supplies_same_chunk budgetMaxEnv 100 chunkThreeV3 [80, 80, 88] (fun _ _ => rfl)
      (by decide) (by decide) hpacked (by decide) m 0
  · rw [recordCount_replicate]
    decide
  · rintro ⟨fuel, hfuel⟩
    apply hfuel
    simp only [_UsnpReadJournalRecords]
    exact (key fuel _ (by decide)).1
  · intro fuel
    simp only [_UsnpReadJournalRecords]
    have h := (key fuel
      { ReadData :=
          { StartUsn := 0, ReasonMask := 0xFFFFFFFF, ReturnOnlyOnClose := 0, Timeout := 0,
            BytesToWaitFor := 0, UsnJournalID := sampleJournal.UsnJournalID,
            MinMajorVersion := sampleJournal.MinSupportedMajorVersion,
            MaxMajorVersion := sampleJournal.MaxSupportedMajorVersion },
        count := 0, requests := [], decoded := [], world := startWorld } (by decide)).2
    simp only [List.length_nil, Nat.zero_add, List.length_cons] at h
    omega

end Usn
